import Mathlib

/-!
Verification of the shell-configuration transpiler in
`.shellgen/generate_shell.py` (YAML DSL → fish, zsh, bash, pwsh).

The Python program is shallowly embedded: YAML values become the inductive
`Yaml` (mappings are ordered association lists, matching Python dict
insertion order), Python exceptions become the `Except PyErr` monad, and
`str.format` templates are represented as token lists so that positional
(`{0}`) and named (`{var}`, `{value}`) placeholder substitution — and the
exceptions it raises — can be modelled faithfully.
-/

namespace Shellgen

/-- Python exception kinds raised by the transpiler (messages elided). -/
inductive PyErr where
  | keyError
  | indexError
  | typeError
  | valueError
  | stopIteration
  | fileNotFoundError
  | attributeError
deriving DecidableEq, Repr

/-- A parsed YAML value.  Mappings keep insertion order (Python 3.7+ dict
semantics) and, as in YAML documents consumed by this program, have string
keys. -/
inductive Yaml where
  | str (s : String)
  | num (n : Int)
  | list (xs : List Yaml)
  | dict (kvs : List (String × Yaml))

/-- First-match lookup in an association list (Python `d[k]` / `k in d`;
Python dicts have unique keys, so first match is the only match). -/
def lookupStr : List (String × Yaml) → String → Option Yaml
  | [], _ => none
  | (k, v) :: rest, key => if k = key then some v else lookupStr rest key

/-- `d.get(k)` for a mapping; `none` on non-mappings. -/
def Yaml.get? : Yaml → String → Option Yaml
  | .dict kvs, k => lookupStr kvs k
  | _, _ => none

/-- `k in d` (key membership for mappings). -/
def Yaml.containsKey (y : Yaml) (k : String) : Bool :=
  (y.get? k).isSome

/-- `next(iter(d), None)`: the first key of a mapping. -/
def Yaml.firstKey : Yaml → Option String
  | .dict kvs => kvs.head?.map Prod.fst
  | _ => none

/-- Python `str(value)` on the scalar values the manifest uses. -/
def pyStr : Yaml → String
  | .str s => s
  | .num n => toString n
  | .list _ => "[...]"
  | .dict _ => "{...}"

/-- Python truthiness of a value. -/
def pyTruthy : Yaml → Bool
  | .str s => s != ""
  | .num n => n != 0
  | .list xs => !xs.isEmpty
  | .dict kvs => !kvs.isEmpty

/-- One token of a Python `str.format` template string.  `lit` text contains
no brace characters; a literal brace in the source template (written `\x7b\x7b`
or `\x7d\x7d` there) is the `lbrace`/`rbrace` token; `pos` is the positional
placeholder `\x7b0\x7d`; `named f` is a named placeholder.  Rendering the raw
token list reproduces the source template string exactly. -/
inductive Tok where
  | lit (s : String)
  | pos
  | named (field : String)
  | lbrace
  | rbrace

/-- The template string exactly as written in the Python source (what Python
returns when the template is used *without* `.format`, as happens for bare
string guards). -/
def rawTemplate : List Tok → String
  | [] => ""
  | .lit s :: ts => s ++ rawTemplate ts
  | .pos :: ts => "\x7b0\x7d" ++ rawTemplate ts
  | .named f :: ts => "\x7b" ++ f ++ "\x7d" ++ rawTemplate ts
  | .lbrace :: ts => "\x7b\x7b" ++ rawTemplate ts
  | .rbrace :: ts => "\x7d\x7d" ++ rawTemplate ts

/-- `template.format(arg)` with a single positional argument: a named
placeholder raises `KeyError`; escaped braces become single braces. -/
def formatPos (arg : String) : List Tok → Except PyErr String
  | [] => .ok ""
  | .lit s :: ts => (formatPos arg ts).map (fun r => s ++ r)
  | .pos :: ts => (formatPos arg ts).map (fun r => arg ++ r)
  | .named _ :: _ => .error .keyError
  | .lbrace :: ts => (formatPos arg ts).map (fun r => "\x7b" ++ r)
  | .rbrace :: ts => (formatPos arg ts).map (fun r => "\x7d" ++ r)

/-- First-match lookup in a `String`-keyed association list (generic). -/
def assocLookup {α : Type} : List (String × α) → String → Option α
  | [], _ => none
  | (k, v) :: rest, key => if k = key then some v else assocLookup rest key

/-- `template.format(**kwargs)`: a positional placeholder raises `IndexError`
(no positional arguments were supplied), an unknown named field raises
`KeyError`. -/
def formatNamed (kwargs : List (String × String)) : List Tok → Except PyErr String
  | [] => .ok ""
  | .lit s :: ts => (formatNamed kwargs ts).map (fun r => s ++ r)
  | .pos :: _ => .error .indexError
  | .named f :: ts =>
      match assocLookup kwargs f with
      | some v => (formatNamed kwargs ts).map (fun r => v ++ r)
      | none => .error .keyError
  | .lbrace :: ts => (formatNamed kwargs ts).map (fun r => "\x7b" ++ r)
  | .rbrace :: ts => (formatNamed kwargs ts).map (fun r => "\x7d" ++ r)

/-- A 4-tuple `(fish, zsh, bash, pwsh)`, one entry per target shell. -/
structure Tup4 (α : Type) where
  fish : α
  zsh : α
  bash : α
  pwsh : α

/-- Tuple indexing `entry[idx]`.  Indices only ever come from `SHELL_INDEX`,
so they lie in `\x7b0,1,2,3\x7d`. -/
def Tup4.get {α : Type} (t : Tup4 α) : Nat → α
  | 0 => t.fish
  | 1 => t.zsh
  | 2 => t.bash
  | _ => t.pwsh

/-- `HEADER` (generate_shell.py line 41). -/
def HEADER : String := "# Generated from .shellgen/shell.yaml -- DO NOT EDIT"

/-- `SHELLS` (line 47). -/
def SHELLS : List String := ["fish", "zsh", "bash", "pwsh"]

/-- `SHELL_INDEX` (line 48); `none` models the `KeyError` an unknown shell
name would raise. -/
def SHELL_INDEX (shell : String) : Option Nat :=
  if shell = "fish" then some 0
  else if shell = "zsh" then some 1
  else if shell = "bash" then some 2
  else if shell = "pwsh" then some 3
  else none

/-- `GUARDS` (lines 74-129): guards as bail / early-return lines. -/
def GUARDS : List (String × Tup4 (List Tok)) :=
  [ ("command_exists",
     ⟨[.lit "command -q ", .pos, .lit "; or return 0"],
      [.lit "(( $+commands[", .pos, .lit "] )) || return 0"],
      [.lit "command -v ", .pos, .lit " &>/dev/null || return 0"],
      [.lit "if (-not (Get-Command '", .pos,
       .lit "' -ErrorAction SilentlyContinue)) ", .lbrace, .lit " return ", .rbrace]⟩),
    ("env_not_set",
     ⟨[.lit "not set -q ", .pos, .lit "; or return 0"],
      [.lit "[[ -z $", .pos, .lit " ]] || return 0"],
      [.lit "[[ -z \"$", .pos, .lit "\" ]] || return 0"],
      [.lit "if ($env:", .pos, .lit ") ", .lbrace, .lit " return ", .rbrace]⟩),
    ("env_set",
     ⟨[.lit "set -q ", .pos, .lit "; or return 0"],
      [.lit "[[ -n $", .pos, .lit " ]] || return 0"],
      [.lit "[[ -n \"$", .pos, .lit "\" ]] || return 0"],
      [.lit "if (-not $env:", .pos, .lit ") ", .lbrace, .lit " return ", .rbrace]⟩),
    ("env_equals",
     ⟨[.lit "test \"$", .named "var", .lit "\" = \"", .named "value",
       .lit "\"; or return 0"],
      [.lit "[[ \"$", .named "var", .lit "\" == \"", .named "value",
       .lit "\" ]] || return 0"],
      [.lit "[[ \"$", .named "var", .lit "\" == \"", .named "value",
       .lit "\" ]] || return 0"],
      [.lit "if ($env:", .named "var", .lit " -ne '", .named "value",
       .lit "') ", .lbrace, .lit " return ", .rbrace]⟩),
    ("not_env_equals",
     ⟨[.lit "test \"$", .named "var", .lit "\" != \"", .named "value",
       .lit "\"; or return 0"],
      [.lit "[[ \"$", .named "var", .lit "\" != \"", .named "value",
       .lit "\" ]] || return 0"],
      [.lit "[[ \"$", .named "var", .lit "\" != \"", .named "value",
       .lit "\" ]] || return 0"],
      [.lit "if ($env:", .named "var", .lit " -eq '", .named "value",
       .lit "') ", .lbrace, .lit " return ", .rbrace]⟩),
    ("is_tty",
     ⟨[.lit "isatty stdin; or return 0"],
      [.lit "[[ -t 0 ]] || return 0"],
      [.lit "[[ -t 0 ]] || return 0"],
      [.lit "if (-not [Environment]::UserInteractive) ", .named " return "]⟩),
    ("is_interactive",
     ⟨[.lit "status is-interactive; or return 0"],
      [.lit "[[ -o interactive ]] || return 0"],
      [.lit "[[ $- == *i* ]] || return 0"],
      [.lit "if (-not [Environment]::UserInteractive) ", .named " return "]⟩),
    ("file_exists",
     ⟨[.lit "test -f ", .pos, .lit "; or return 0"],
      [.lit "[[ -f ", .pos, .lit " ]] || return 0"],
      [.lit "[[ -f ", .pos, .lit " ]] || return 0"],
      [.lit "if (-not (Test-Path '", .pos, .lit "' -PathType Leaf)) ",
       .lbrace, .lit " return ", .rbrace]⟩),
    ("dir_exists",
     ⟨[.lit "test -d ", .pos, .lit "; or return 0"],
      [.lit "[[ -d ", .pos, .lit " ]] || return 0"],
      [.lit "[[ -d ", .pos, .lit " ]] || return 0"],
      [.lit "if (-not (Test-Path '", .pos, .lit "' -PathType Container)) ",
       .lbrace, .lit " return ", .rbrace]⟩) ]

/-- `GUARD_CONDITIONS` (lines 133-188): guard conditions for if/elif. -/
def GUARD_CONDITIONS : List (String × Tup4 (List Tok)) :=
  [ ("command_exists",
     ⟨[.lit "command -q ", .pos],
      [.lit "(( $+commands[", .pos, .lit "] ))"],
      [.lit "command -v ", .pos, .lit " &>/dev/null"],
      [.lit "(Get-Command '", .pos, .lit "' -ErrorAction SilentlyContinue)"]⟩),
    ("env_not_set",
     ⟨[.lit "not set -q ", .pos],
      [.lit "[[ -z $", .pos, .lit " ]]"],
      [.lit "[[ -z \"$", .pos, .lit "\" ]]"],
      [.lit "(-not $env:", .pos, .lit ")"]⟩),
    ("env_set",
     ⟨[.lit "set -q ", .pos],
      [.lit "[[ -n $", .pos, .lit " ]]"],
      [.lit "[[ -n \"$", .pos, .lit "\" ]]"],
      [.lit "($env:", .pos, .lit ")"]⟩),
    ("env_equals",
     ⟨[.lit "test \"$", .named "var", .lit "\" = \"", .named "value", .lit "\""],
      [.lit "[[ \"$", .named "var", .lit "\" == \"", .named "value", .lit "\" ]]"],
      [.lit "[[ \"$", .named "var", .lit "\" == \"", .named "value", .lit "\" ]]"],
      [.lit "($env:", .named "var", .lit " -eq '", .named "value", .lit "')"]⟩),
    ("not_env_equals",
     ⟨[.lit "test \"$", .named "var", .lit "\" != \"", .named "value", .lit "\""],
      [.lit "[[ \"$", .named "var", .lit "\" != \"", .named "value", .lit "\" ]]"],
      [.lit "[[ \"$", .named "var", .lit "\" != \"", .named "value", .lit "\" ]]"],
      [.lit "($env:", .named "var", .lit " -ne '", .named "value", .lit "')"]⟩),
    ("is_tty",
     ⟨[.lit "isatty stdin"],
      [.lit "[[ -t 0 ]]"],
      [.lit "[[ -t 0 ]]"],
      [.lit "[Environment]::UserInteractive"]⟩),
    ("is_interactive",
     ⟨[.lit "status is-interactive"],
      [.lit "[[ -o interactive ]]"],
      [.lit "[[ $- == *i* ]]"],
      [.lit "[Environment]::UserInteractive"]⟩),
    ("file_exists",
     ⟨[.lit "test -f ", .pos],
      [.lit "[[ -f ", .pos, .lit " ]]"],
      [.lit "[[ -f ", .pos, .lit " ]]"],
      [.lit "(Test-Path '", .pos, .lit "' -PathType Leaf)"]⟩),
    ("dir_exists",
     ⟨[.lit "test -d ", .pos],
      [.lit "[[ -d ", .pos, .lit " ]]"],
      [.lit "[[ -d ", .pos, .lit " ]]"],
      [.lit "(Test-Path '", .pos, .lit "' -PathType Container)"]⟩) ]

/-- `PREDICATES` (lines 192-223): predicate bodies, plain strings. -/
def PREDICATES : List (String × Tup4 String) :=
  [ ("os_is_darwin",
     ⟨"test (uname) = \"Darwin\"",
      "[[ $OSTYPE == *darwin* ]]",
      "[[ $OSTYPE == darwin* ]]",
      "$IsMacOS"⟩),
    ("os_is_linux",
     ⟨"test (uname) = \"Linux\"",
      "[[ $OSTYPE == *linux* ]]",
      "[[ $OSTYPE == linux* ]]",
      "$IsLinux"⟩),
    ("os_is_windows",
     ⟨"string match -q \"Msys\" (uname -o 2>/dev/null; or echo unknown)",
      "[[ $OSTYPE == msys* ]]",
      "[[ $OSTYPE == msys* ]]",
      "$IsWindows"⟩),
    ("arch_is_arm64",
     ⟨"test (uname -m) = arm64; or test (uname -m) = aarch64",
      "[[ $(uname -m) == (arm64|aarch64) ]]",
      "[[ $(uname -m) == arm64 || $(uname -m) == aarch64 ]]",
      "[Runtime.InteropServices.RuntimeInformation]::OSArchitecture -eq 'Arm64'"⟩),
    ("arch_is_x86_64",
     ⟨"test (uname -m) = \"x86_64\"",
      "[[ $(uname -m) == x86_64 ]]",
      "[[ $(uname -m) == x86_64 ]]",
      "[Runtime.InteropServices.RuntimeInformation]::OSArchitecture -eq 'X64'"⟩) ]

/-- `translate_guard_condition` (lines 449-485): convert a declarative guard
to a shell-specific condition expression.  A guard mapping whose *first* key
is `not` recursively translates the inner guard (`guard["not"]`, which is
that first key's value) and wraps it in the shell's negation idiom; a bare
string guard returns the raw table entry; any other mapping looks up its
first key, whose value is formatted into the template (named fields when the
value is a mapping, positionally otherwise).  Python's `ValueError` and
`StopIteration` (`next(iter(\x7b\x7d))`) are modelled by the corresponding
`PyErr`. -/
def translate_guard_condition : Yaml → String → Except PyErr String
  | guard, shell =>
    match SHELL_INDEX shell with
    | none => .error .keyError
    | some idx =>
      match guard with
      | .dict (("not", inner) :: _) =>
          match translate_guard_condition inner shell with
          | .error e => .error e
          | .ok cond =>
              if shell = "fish" then .ok ("not " ++ cond)
              else if shell = "pwsh" then .ok ("(-not " ++ cond ++ ")")
              else .ok ("! " ++ cond)
      | .str s =>
          match assocLookup GUARD_CONDITIONS s with
          | none => .error .valueError
          | some entry => .ok (rawTemplate (entry.get idx))
      | .dict [] => .error .stopIteration
      | .dict ((key, value) :: _) =>
          match assocLookup GUARD_CONDITIONS key with
          | none => .error .valueError
          | some entry =>
              match value with
              | .dict kvs =>
                  formatNamed (kvs.map (fun p => (p.1, pyStr p.2))) (entry.get idx)
              | _ => formatPos (pyStr value) (entry.get idx)
      | _ => .error .valueError

/-- `translate_guard` (lines 413-446): convert a declarative guard to a
shell-specific bail line.  The `not` meta-guard translates the inner guard in
*condition* form and wraps it in the shell's "if the condition IS true,
bail" idiom; bare string guards return the raw `GUARDS` entry; parameterized
guards format their first key's template. -/
def translate_guard (guard : Yaml) (shell : String) : Except PyErr String :=
  match SHELL_INDEX shell with
  | none => .error .keyError
  | some idx =>
    match guard with
    | .dict (("not", inner) :: _) =>
        match translate_guard_condition inner shell with
        | .error e => .error e
        | .ok cond =>
            if shell = "fish" then .ok (cond ++ "; and return 0")
            else if shell = "pwsh" then .ok ("if (" ++ cond ++ ") \x7b return \x7d")
            else .ok (cond ++ " && return 0")
    | .str s =>
        match assocLookup GUARDS s with
        | none => .error .valueError
        | some entry => .ok (rawTemplate (entry.get idx))
    | .dict [] => .error .stopIteration
    | .dict ((key, value) :: _) =>
        match assocLookup GUARDS key with
        | none => .error .valueError
        | some entry =>
            match value with
            | .dict kvs =>
                formatNamed (kvs.map (fun p => (p.1, pyStr p.2))) (entry.get idx)
            | _ => formatPos (pyStr value) (entry.get idx)
    | _ => .error .valueError

/-- `', '.flatten(sorted(ALL_GUARD_KEYS))` (line 226: the nine guard names plus
`not`), precomputed. -/
def ALL_GUARD_KEYS_SORTED : String :=
  "command_exists, dir_exists, env_equals, env_not_set, env_set, file_exists, is_interactive, is_tty, not, not_env_equals"

/-- `key in GUARDS`. -/
def guardKnown (k : String) : Bool := (assocLookup GUARDS k).isSome

/-- Python `type(x)` as printed in f-strings, for the manifest value kinds. -/
def pyTypeName : Yaml → String
  | .str _ => "<class 'str'>"
  | .num _ => "<class 'int'>"
  | .list _ => "<class 'list'>"
  | .dict _ => "<class 'dict'>"

/-- `_validate_guard` (lines 377-397), returning the error strings this guard
appends.  A mapping guard is accepted as soon as its first key is `not`
(recursing into `guard["not"]`) or names a known guard — the *shape* of the
guard's parameter value is never checked.  An empty mapping reports key
`None`. -/
def _validate_guard : Yaml → String → List String
  | .str s, ctx =>
      if guardKnown s then []
      else [ctx ++ ": unknown string guard '" ++ s ++ "' (known: " ++
            ALL_GUARD_KEYS_SORTED ++ ")"]
  | .dict (("not", inner) :: _), ctx =>
      _validate_guard inner (ctx ++ " (inside 'not')")
  | .dict [], ctx =>
      [ctx ++ ": unknown guard type 'None' (known: " ++ ALL_GUARD_KEYS_SORTED ++ ")"]
  | .dict ((key, _) :: _), ctx =>
      if guardKnown key then []
      else [ctx ++ ": unknown guard type '" ++ key ++ "' (known: " ++
            ALL_GUARD_KEYS_SORTED ++ ")"]
  | g, ctx => [ctx ++ ": invalid guard type: " ++ pyTypeName g]

/-- `"\n".flatten(lines)` — Python's join, written recursively. -/
def joinNl : List String → String
  | [] => ""
  | [x] => x
  | x :: xs => x ++ "\n" ++ joinNl xs

/-- `s.rstrip("\n")`: drop trailing newline characters. -/
def rstripNl (s : String) : String :=
  ⟨(s.data.reverse.dropWhile (fun c => c = '\n')).reverse⟩

/-- Python `str.strip()` whitespace test. -/
def pyIsSpace (c : Char) : Bool :=
  c = ' ' || c = '\t' || c = '\n' || c = '\r' || c = '\x0b' || c = '\x0c'

/-- Python `s.strip()` (used only for its truthiness in line indentation). -/
def pyStrip (s : String) : String :=
  ⟨((s.data.dropWhile pyIsSpace).reverse.dropWhile pyIsSpace).reverse⟩

/-- Helper for `pySplitNl`: split a character list at newlines, `acc` holding
the current segment reversed. -/
def splitNlAux : List Char → List Char → List String
  | [], acc => [⟨acc.reverse⟩]
  | '\n' :: rest, acc => (⟨acc.reverse⟩ : String) :: splitNlAux rest []
  | c :: rest, acc => splitNlAux rest (c :: acc)

/-- Python `s.split("\n")` (note `"".split("\n") == [""]`). -/
def pySplitNl (s : String) : List String :=
  splitNlAux s.data []

/-- Helper for `replaceShell`: replace every occurrence of the seven-character
pattern `\x7bshell\x7d` (the only pattern this program ever replaces) by
`sub`, scanning left to right as Python `str.replace` does. -/
def replaceShellAux (sub : List Char) : List Char → List Char
  | '\x7b' :: 's' :: 'h' :: 'e' :: 'l' :: 'l' :: '\x7d' :: rest =>
      sub ++ replaceShellAux sub rest
  | c :: cs => c :: replaceShellAux sub cs
  | [] => []

/-- `cmd.replace("\x7bshell\x7d", shell)`. -/
def replaceShell (cmd shell : String) : String :=
  ⟨replaceShellAux shell.data cmd.data⟩

/-- `_render_path` (lines 492-499). -/
def _render_path (path : String) (shell : String) : String :=
  if shell = "fish" then "fish_add_path " ++ path
  else if shell = "pwsh" then
    "$env:PATH = \"" ++ path ++ "\" + [IO.Path]::PathSeparator + $env:PATH"
  else "export PATH=\"" ++ path ++ ":$PATH\""

/-- `_render_alias` (lines 502-510). -/
def _render_alias (name : String) (cmd : String) (shell : String) : String :=
  if shell = "fish" then "alias " ++ name ++ "='" ++ cmd ++ "'"
  else if shell = "pwsh" then "function " ++ name ++ " \x7b " ++ cmd ++ " @args \x7d"
  else "alias " ++ name ++ "=\"" ++ cmd ++ "\""

/-- `_render_tool_init` (lines 513-520). -/
def _render_tool_init (tool : String) (shell : String) : String :=
  if shell = "fish" then tool ++ " init fish | source"
  else if shell = "pwsh" then "(& " ++ tool ++ " init pwsh) | Invoke-Expression"
  else "eval \"$(" ++ tool ++ " init " ++ shell ++ ")\""

/-- `_render_env_var` (lines 523-531); the caller passes `str(value)`. -/
def _render_env_var (var : String) (value : String) (shell : String) : String :=
  if shell = "fish" then "set -gx " ++ var ++ " \"" ++ value ++ "\""
  else if shell = "pwsh" then "$env:" ++ var ++ " = \"" ++ value ++ "\""
  else "export " ++ var ++ "=\"" ++ value ++ "\""

/-- `_render_source_file` (lines 534-541). -/
def _render_source_file (path : String) (shell : String) : String :=
  if shell = "fish" then "test -f \"" ++ path ++ "\"; and source \"" ++ path ++ "\""
  else if shell = "pwsh" then "if (Test-Path \"" ++ path ++ "\") \x7b . \"" ++ path ++ "\" \x7d"
  else "[[ -f \"" ++ path ++ "\" ]] && source \"" ++ path ++ "\""

/-- `_render_eval_command` (lines 544-556).  The Python
`shell if shell != "pwsh" else "pwsh"` is just `shell`. -/
def _render_eval_command (cmd : String) (shell : String) : String :=
  let resolved := replaceShell cmd shell
  if shell = "fish" then resolved ++ " | source"
  else if shell = "pwsh" then "(& " ++ resolved ++ ") | Invoke-Expression"
  else "eval \"$(" ++ resolved ++ ")\""

/-- Body-text resolution shared verbatim by `_render_body_lines`
(lines 593-600) and `_generate_complex` (lines 713-719): prefer the exact
shell key, fall back to `shared`, else empty; the chosen text has trailing
newlines stripped.  A non-string entry (`.rstrip` on it) or a non-mapping
body section (Python would substring-search a string) is modelled as an
error; no claim depends on those shapes. -/
def resolve_body (body_section : Yaml) (shell : String) : Except PyErr String :=
  match body_section with
  | .dict kvs =>
      match lookupStr kvs shell with
      | some (.str s) => .ok (rstripNl s)
      | some _ => .error .attributeError
      | none =>
          match lookupStr kvs "shared" with
          | some (.str s) => .ok (rstripNl s)
          | some _ => .error .attributeError
          | none => .ok ""
  | _ => .error .typeError

/-- `_render_body_lines` (lines 559-604): render the body constructs of a
module or conditional branch, in the fixed order env, paths, aliases, tool,
source_file, eval_command, body.  Values interpolated into f-strings go
through `str` (`pyStr`); a `source_file` that is neither a string nor a list
is silently skipped, exactly as in the source.  Shapes on which Python would
raise (e.g. `.items()` on a non-mapping `env`) are errors; iterating a
non-list `paths`/`aliases` value is also modelled as an error (Python would
iterate a string per character; no claim depends on that). -/
def _render_body_lines (sect : Yaml) (shell : String) : Except PyErr (List String) :=
  match sect with
  | .dict kvs => do
      let envLines ←
        match lookupStr kvs "env" with
        | none => Except.ok []
        | some (.dict ekvs) =>
            Except.ok (ekvs.map fun p => _render_env_var p.1 (pyStr p.2) shell)
        | some _ => Except.error .attributeError
      let pathLines ←
        match lookupStr kvs "paths" with
        | none => Except.ok []
        | some (.list xs) => Except.ok (xs.map fun p => _render_path (pyStr p) shell)
        | some _ => Except.error .typeError
      let aliasLines ←
        match lookupStr kvs "aliases" with
        | none => Except.ok []
        | some (.dict akvs) =>
            Except.ok (akvs.map fun p => _render_alias p.1 (pyStr p.2) shell)
        | some _ => Except.error .attributeError
      let toolLines ←
        match lookupStr kvs "tool" with
        | none => Except.ok []
        | some t => Except.ok [_render_tool_init (pyStr t) shell]
      let sfLines ←
        match lookupStr kvs "source_file" with
        | none => Except.ok []
        | some (.str s) => Except.ok [_render_source_file s shell]
        | some (.list xs) => Except.ok (xs.map fun p => _render_source_file (pyStr p) shell)
        | some _ => Except.ok []
      let evalLines ←
        match lookupStr kvs "eval_command" with
        | none => Except.ok []
        | some (.str c) => Except.ok [_render_eval_command c shell]
        | some _ => Except.error .attributeError
      let bodyLines ←
        match lookupStr kvs "body" with
        | none => Except.ok []
        | some b => do
            let s ← resolve_body b shell
            if s = "" then Except.ok [] else Except.ok (pySplitNl s)
      Except.ok (envLines ++ pathLines ++ aliasLines ++ toolLines ++ sfLines ++
                 evalLines ++ bodyLines)
  | _ => .error .typeError

/-- Body-line indentation inside a conditional branch
(`f"    \x7bline\x7d" if line.strip() else ""`, lines 622/634/645). -/
def indentLine (l : String) : String :=
  if pyStrip l = "" then "" else "    " ++ l

/-- The per-shell `if` header line of `_render_conditional` (lines 615-620). -/
def condHeaderIf (shell cond : String) : String :=
  if shell = "fish" then "if " ++ cond
  else if shell = "pwsh" then "if (" ++ cond ++ ") \x7b"
  else "if " ++ cond ++ "; then"

/-- The per-shell `elif` header line of `_render_conditional` (lines 627-632). -/
def condHeaderElif (shell cond : String) : String :=
  if shell = "fish" then "else if " ++ cond
  else if shell = "pwsh" then "\x7d elseif (" ++ cond ++ ") \x7b"
  else "elif " ++ cond ++ "; then"

/-- The per-shell `else` header line of `_render_conditional` (lines 638-643). -/
def condHeaderElse (shell : String) : String :=
  if shell = "fish" then "else"
  else if shell = "pwsh" then "\x7d else \x7b"
  else "else"

/-- The per-shell block terminator of `_render_conditional` (lines 648-653). -/
def condTerminator (shell : String) : String :=
  if shell = "fish" then "end"
  else if shell = "pwsh" then "\x7d"
  else "fi"

/-- The lines one branch contributes in `_render_conditional` (lines
611-645): a header from the branch's `if`/`elif` guard in condition form (or
a bare `else` header), followed by the branch's body lines indented; a
branch with none of the three keys contributes nothing. -/
def renderBranch (branch : Yaml) (shell : String) : Except PyErr (List String) :=
  match branch.get? "if" with
  | some g => do
      let cond ← translate_guard_condition g shell
      let body ← _render_body_lines branch shell
      .ok (condHeaderIf shell cond :: body.map indentLine)
  | none =>
    match branch.get? "elif" with
    | some g => do
        let cond ← translate_guard_condition g shell
        let body ← _render_body_lines branch shell
        .ok (condHeaderElif shell cond :: body.map indentLine)
    | none =>
      if branch.containsKey "else" then do
        let body ← _render_body_lines branch shell
        .ok (condHeaderElse shell :: body.map indentLine)
      else .ok []

/-- The branch loop of `_render_conditional`, concatenating each branch's
lines in order. -/
def renderBranches : List Yaml → String → Except PyErr (List String)
  | [], _ => .ok []
  | b :: bs, shell => do
      let p ← renderBranch b shell
      let rest ← renderBranches bs shell
      .ok (p ++ rest)

/-- `_render_conditional` (lines 607-655): all branch lines, then the
shell's block terminator, joined with newlines. -/
def _render_conditional (conditional : List Yaml) (shell : String) :
    Except PyErr String := do
  let parts ← renderBranches conditional shell
  .ok (joinNl (parts ++ [condTerminator shell]))

/-- `_generate_predicate` (lines 673-698): header, description comment and a
per-shell wrapper around the predicate's body; zsh (autoload) gets a blank
line and the bare body.  `KeyError` models an unknown shell or predicate. -/
def _generate_predicate (name desc predicate : String) (shell : String) :
    Except PyErr String :=
  match SHELL_INDEX shell with
  | none => .error .keyError
  | some idx =>
    match assocLookup PREDICATES predicate with
    | none => .error .keyError
    | some entry =>
      let body := entry.get idx
      let tail :=
        if shell = "fish" then
          ["# " ++ desc, "function " ++ name ++ " --description '" ++ desc ++ "'",
           "    " ++ body, "end"]
        else if shell = "bash" then
          ["# " ++ desc, name ++ "() \x7b", "    " ++ body, "\x7d"]
        else if shell = "pwsh" then
          ["# " ++ desc, "function " ++ name ++ " \x7b", "    " ++ body, "\x7d"]
        else ["", body]
      .ok (joinNl (HEADER :: tail) ++ "\n")

/-- The description/usage comment lines of `_generate_complex`
(lines 704-710), including the blank separator line. -/
def complexHeaderTail (desc : String) (func : Yaml) : List String :=
  match func.get? "usage" with
  | some u => ["# " ++ desc, "# Usage: " ++ pyStr u,
               "# Returns the exit code of the command", ""]
  | none => ["# " ++ desc, ""]

/-- `_generate_complex` (lines 701-739): header and comments, then the
resolved body text wrapped in the shell's function syntax with each line
re-indented (blank lines stay empty); zsh gets the bare body text. -/
def _generate_complex (name desc : String) (func : Yaml) (shell : String) :
    Except PyErr String :=
  match func.get? "body" with
  | none => .error .keyError
  | some bodySection =>
    match resolve_body bodySection shell with
    | .error e => .error e
    | .ok body_text =>
      let shellLines :=
        if shell = "fish" then
          ["function " ++ name] ++ (pySplitNl body_text).map indentLine ++ ["end"]
        else if shell = "bash" then
          [name ++ "() \x7b"] ++ (pySplitNl body_text).map indentLine ++ ["\x7d"]
        else if shell = "pwsh" then
          ["function " ++ name ++ " \x7b"] ++ (pySplitNl body_text).map indentLine ++ ["\x7d"]
        else [body_text]
      .ok (joinNl (HEADER :: (complexHeaderTail desc func ++ shellLines)) ++ "\n")

/-- `generate_function` (lines 662-670): dispatch on the presence of
`predicate`.  `func["name"]`/`func["description"]` raise `KeyError` when
absent; a non-string `predicate` value is never a `PREDICATES` key, which
also raises `KeyError`. -/
def generate_function (func : Yaml) (shell : String) : Except PyErr String :=
  match func.get? "name" with
  | none => .error .keyError
  | some nameV =>
    match func.get? "description" with
    | none => .error .keyError
    | some descV =>
      if func.containsKey "predicate" then
        match func.get? "predicate" with
        | some (.str p) => _generate_predicate (pyStr nameV) (pyStr descV) p shell
        | _ => .error .keyError
      else _generate_complex (pyStr nameV) (pyStr descV) func shell

/-- `_collect_guards` (lines 404-410): plural `guards` wins over singular
`guard`; neither yields `[]`.  A non-list `guards` value raises at the
caller's iteration, modelled here as the error. -/
def _collect_guards (mod : Yaml) : Except PyErr (List Yaml) :=
  match mod.get? "guards" with
  | some (.list gs) => .ok gs
  | some _ => .error .typeError
  | none =>
    match mod.get? "guard" with
    | some g => .ok [g]
    | none => .ok []

/-- The guard loop of `generate_module` (lines 761-762): translate each guard
to its bail line, in order, propagating the first failure. -/
def translateGuards : List Yaml → String → Except PyErr (List String)
  | [], _ => .ok []
  | g :: gs, shell =>
    match translate_guard g shell with
    | .error e => .error e
    | .ok l =>
      match translateGuards gs shell with
      | .error e => .error e
      | .ok rest => .ok (l :: rest)

/-- `generate_module` (lines 746-774): header, description, optional
url/comment lines, blank line, guard bail lines (plus a blank line when any
guard exists), all rendered body constructs, and a trailing conditional
block when present. -/
def generate_module (mod : Yaml) (shell : String) : Except PyErr String :=
  match mod.get? "description" with
  | none => .error .keyError
  | some descV =>
    let url := (mod.get? "url").getD (Yaml.str "")
    let comment := (mod.get? "comment").getD (Yaml.str "")
    match _collect_guards mod with
    | .error e => .error e
    | .ok guards =>
      match translateGuards guards shell with
      | .error e => .error e
      | .ok glines =>
        match _render_body_lines mod shell with
        | .error e => .error e
        | .ok bodyLines =>
          let front := ("# " ++ pyStr descV)
            :: ((if pyTruthy url then ["# " ++ pyStr url] else [])
              ++ (if pyTruthy comment then ["# " ++ pyStr comment] else [])
              ++ [""])
            ++ glines ++ (if guards.isEmpty then [] else [""]) ++ bodyLines
          match mod.get? "conditional" with
          | none => .ok (joinNl (HEADER :: front) ++ "\n")
          | some (.list branches) =>
            match _render_conditional branches shell with
            | .error e => .error e
            | .ok block => .ok (joinNl (HEADER :: (front ++ [block])) ++ "\n")
          | some _ => .error .typeError

/-- The three-branch EDITOR conditional from the spec's concrete scenario 4:
`if command_exists nvim → env EDITOR=nvim`, `elif command_exists vim → env
EDITOR=vim`, `else → env EDITOR=vi`. -/
def editorConditional : List Yaml :=
  [ Yaml.dict [("if", Yaml.dict [("command_exists", Yaml.str "nvim")]),
               ("env", Yaml.dict [("EDITOR", Yaml.str "nvim")])],
    Yaml.dict [("elif", Yaml.dict [("command_exists", Yaml.str "vim")]),
               ("env", Yaml.dict [("EDITOR", Yaml.str "vim")])],
    Yaml.dict [("else", Yaml.num 1),
               ("env", Yaml.dict [("EDITOR", Yaml.str "vi")])] ]

/-- C1: for every guard `G` whose condition form translates successfully and
every supported shell, `translate_guard` on the one-level negation
`\x7bnot: G\x7d` emits exactly the inner guard's condition-form text wrapped
in that shell's "if the condition IS true, bail" idiom: `; and return 0` for
fish, `if (...) \x7b return \x7d` for pwsh, and ` && return 0` for bash and
zsh — not a negated expression followed by the normal bail suffix. -/
theorem C1_not_guard_bail_duality (G : Yaml) (shell cond : String)
    (hs : shell ∈ SHELLS)
    (hc : translate_guard_condition G shell = .ok cond) :
    translate_guard (Yaml.dict [("not", G)]) shell =
      .ok (if shell = "fish" then cond ++ "; and return 0"
           else if shell = "pwsh" then "if (" ++ cond ++ ") \x7b return \x7d"
           else cond ++ " && return 0") := by
  simp only [SHELLS, List.mem_cons, List.not_mem_nil, or_false] at hs
  rcases hs with rfl | rfl | rfl | rfl <;>
    simp [translate_guard, SHELL_INDEX, hc]

/-- Witness for C1 at the concrete guard `\x7bnot: is_tty\x7d` and shell
`fish`. -/
theorem C1_witness :
    translate_guard (Yaml.dict [("not", Yaml.str "is_tty")]) "fish" =
      .ok "isatty stdin; and return 0" := by
  have h := C1_not_guard_bail_duality (Yaml.str "is_tty") "fish" "isatty stdin"
    (by decide) (by rfl)
  simpa using h

/-- C10: the named-placeholder guards `env_equals` and `not_env_equals`
applied to a scalar parameter (e.g. `\x7benv_equals: "FOO"\x7d`) pass
`_validate_guard` with no errors, yet `translate_guard` and
`translate_guard_condition` raise `KeyError` on them for every supported
shell: the positional `.format` call cannot fill the named `var`/`value`
placeholders, and validation never checks a guard parameter's shape against
its template. -/
theorem C10_valid_guard_translation_raises :
    (_validate_guard (Yaml.dict [("env_equals", Yaml.str "FOO")]) "ctx" = [] ∧
     _validate_guard (Yaml.dict [("not_env_equals", Yaml.str "FOO")]) "ctx" = []) ∧
    (translate_guard (Yaml.dict [("env_equals", Yaml.str "FOO")]) "fish" = .error .keyError ∧
     translate_guard (Yaml.dict [("env_equals", Yaml.str "FOO")]) "zsh" = .error .keyError ∧
     translate_guard (Yaml.dict [("env_equals", Yaml.str "FOO")]) "bash" = .error .keyError ∧
     translate_guard (Yaml.dict [("env_equals", Yaml.str "FOO")]) "pwsh" = .error .keyError ∧
     translate_guard (Yaml.dict [("not_env_equals", Yaml.str "FOO")]) "fish" = .error .keyError ∧
     translate_guard (Yaml.dict [("not_env_equals", Yaml.str "FOO")]) "zsh" = .error .keyError ∧
     translate_guard (Yaml.dict [("not_env_equals", Yaml.str "FOO")]) "bash" = .error .keyError ∧
     translate_guard (Yaml.dict [("not_env_equals", Yaml.str "FOO")]) "pwsh" = .error .keyError) ∧
    (translate_guard_condition (Yaml.dict [("env_equals", Yaml.str "FOO")]) "fish" = .error .keyError ∧
     translate_guard_condition (Yaml.dict [("env_equals", Yaml.str "FOO")]) "zsh" = .error .keyError ∧
     translate_guard_condition (Yaml.dict [("env_equals", Yaml.str "FOO")]) "bash" = .error .keyError ∧
     translate_guard_condition (Yaml.dict [("env_equals", Yaml.str "FOO")]) "pwsh" = .error .keyError ∧
     translate_guard_condition (Yaml.dict [("not_env_equals", Yaml.str "FOO")]) "fish" = .error .keyError ∧
     translate_guard_condition (Yaml.dict [("not_env_equals", Yaml.str "FOO")]) "zsh" = .error .keyError ∧
     translate_guard_condition (Yaml.dict [("not_env_equals", Yaml.str "FOO")]) "bash" = .error .keyError ∧
     translate_guard_condition (Yaml.dict [("not_env_equals", Yaml.str "FOO")]) "pwsh" = .error .keyError) :=
  ⟨⟨rfl, rfl⟩,
   ⟨rfl, rfl, rfl, rfl, rfl, rfl, rfl, rfl⟩,
   ⟨rfl, rfl, rfl, rfl, rfl, rfl, rfl, rfl⟩⟩

/-- `BODY_KEYS` (lines 234-235), a Python set; order is irrelevant (it is
only used for membership tests and in sorted error messages). -/
def BODY_KEYS : List String :=
  ["paths", "aliases", "tool", "body", "env", "source_file", "eval_command",
   "conditional"]

/-- `BODY_KEYS - \x7b"conditional"\x7d` (line 361). -/
def BRANCH_BODY_KEYS : List String :=
  ["paths", "aliases", "tool", "body", "env", "source_file", "eval_command"]

/-- `', '.flatten(sorted(BODY_KEYS))`, precomputed. -/
def BODY_KEYS_SORTED_JOINED : String :=
  "aliases, body, conditional, env, eval_command, paths, source_file, tool"

/-- `', '.flatten(sorted(branch_body_keys))` (line 373), precomputed. -/
def BRANCH_BODY_KEYS_SORTED_JOINED : String :=
  "aliases, body, env, eval_command, paths, source_file, tool"

/-- `', '.flatten(sorted(PREDICATES))` (line 258), precomputed. -/
def PREDICATES_SORTED_JOINED : String :=
  "arch_is_arm64, arch_is_x86_64, os_is_darwin, os_is_linux, os_is_windows"

/-- `_validate_env` (lines 303-312).  Keys are strings by construction in
this model, so the source's non-string-key check cannot fire. -/
def _validate_env (env : Yaml) (ctx : String) : List String :=
  match env with
  | .dict kvs =>
      (kvs.map (fun p =>
        match p.2 with
        | .str _ => ([] : List String)
        | .num _ => []
        | _ => [ctx ++ ": env value for '" ++ p.1 ++ "' must be a string or number"])).flatten
  | _ => [ctx ++ ": 'env' must be a dict of VAR: value pairs"]

/-- `_validate_source_file` (lines 315-324). -/
def _validate_source_file (sf : Yaml) (ctx : String) : List String :=
  match sf with
  | .str _ => []
  | .list xs =>
      (xs.map (fun it =>
        match it with
        | .str _ => ([] : List String)
        | _ => [ctx ++ ": source_file list items must be strings"])).flatten
  | _ => [ctx ++ ": 'source_file' must be a string or list of strings"]

/-- `_validate_conditional_branch_body` (lines 358-374); its net effect is
one error when the branch has no key from `BODY_KEYS - \x7bconditional\x7d`
(the source computes this twice in equivalent ways). -/
def _validate_conditional_branch_body (branch : Yaml) (ctx : String) : List String :=
  if BRANCH_BODY_KEYS.any (fun k => branch.containsKey k) then []
  else [ctx ++ ": conditional branch must have at least one body key (" ++
        BRANCH_BODY_KEYS_SORTED_JOINED ++ ")"]

/-- The `for i, branch in enumerate(cond[1:], start=1)` loop of
`_validate_conditional` (lines 342-355). -/
def validateCondBranches (ctx : String) : Nat → List Yaml → List String
  | _, [] => []
  | i, b :: bs =>
    (match b with
     | .dict _ =>
        let bctx := ctx ++ " conditional[" ++ toString i ++ "]"
        let hasElif := b.containsKey "elif"
        let hasElse := b.containsKey "else"
        (if !hasElif && !hasElse then
          [bctx ++ ": branch must have 'elif' or 'else' key"] else [])
        ++ (if hasElif && hasElse then
          [bctx ++ ": branch cannot have both 'elif' and 'else'"] else [])
        ++ (match b.get? "elif" with
            | some g => _validate_guard g bctx
            | none => [])
        ++ _validate_conditional_branch_body b bctx
     | _ => [ctx ++ " conditional[" ++ toString i ++ "]: branch must be a dict"])
    ++ validateCondBranches ctx (i + 1) bs

/-- `_validate_conditional` (lines 327-355). -/
def _validate_conditional (cond : Yaml) (ctx : String) : List String :=
  match cond with
  | .list (first :: rest) =>
      (match first with
       | .dict _ =>
          (match first.get? "if" with
           | some g =>
              _validate_guard g (ctx ++ " conditional[0]")
              ++ _validate_conditional_branch_body first (ctx ++ " conditional[0]")
              ++ validateCondBranches ctx 1 rest
           | none => [ctx ++ ": first conditional branch must have an 'if' key"])
       | _ => [ctx ++ ": first conditional branch must have an 'if' key"])
  | .list [] => [ctx ++ ": 'conditional' must be a non-empty list"]
  | _ => [ctx ++ ": 'conditional' must be a non-empty list"]

/-- The per-function checks of `validate_manifest` (lines 242-259): a
missing `name` reports one error and skips the rest; otherwise check
`description`, `predicate`-or-`body` presence, and that a referenced
predicate is known.  A non-mapping item models Python's `in` raising. -/
def funcItemErrors (i : Nat) (f : Yaml) : Except PyErr (List String) :=
  match f with
  | .dict kvs =>
      .ok (match lookupStr kvs "name" with
        | none => ["functions[" ++ toString i ++ "]: missing required field 'name'"]
        | some nameV =>
            let ctx := "function '" ++ pyStr nameV ++ "'"
            (if (lookupStr kvs "description").isNone then
              [ctx ++ ": missing required field 'description'"] else [])
            ++ (if (lookupStr kvs "predicate").isNone &&
                   (lookupStr kvs "body").isNone then
              [ctx ++ ": must have either 'predicate' or 'body'"] else [])
            ++ (match lookupStr kvs "predicate" with
                | some (.str p) =>
                    if (assocLookup PREDICATES p).isSome then []
                    else [ctx ++ ": unknown predicate '" ++ p ++ "' (known: " ++
                          PREDICATES_SORTED_JOINED ++ ")"]
                | some v =>
                    [ctx ++ ": unknown predicate '" ++ pyStr v ++ "' (known: " ++
                     PREDICATES_SORTED_JOINED ++ ")"]
                | none => []))
  | _ => .error .typeError

/-- The per-module checks of `validate_manifest` (lines 261-298). -/
def modItemErrors (i : Nat) (m : Yaml) : Except PyErr (List String) :=
  match m with
  | .dict kvs =>
      match lookupStr kvs "name" with
      | none => .ok ["modules[" ++ toString i ++ "]: missing required field 'name'"]
      | some nameV =>
          let ctx := "module '" ++ pyStr nameV ++ "'"
          match _collect_guards (Yaml.dict kvs) with
          | .error e => .error e
          | .ok gs =>
              .ok ((if (lookupStr kvs "prefix").isNone then
                     [ctx ++ ": missing required field 'prefix'"] else [])
                ++ (if (lookupStr kvs "description").isNone then
                     [ctx ++ ": missing required field 'description'"] else [])
                ++ (if BODY_KEYS.any (fun k => (lookupStr kvs k).isSome) then []
                    else [ctx ++ ": must have at least one of: " ++
                          BODY_KEYS_SORTED_JOINED])
                ++ (match lookupStr kvs "env" with
                    | some env => _validate_env env ctx
                    | none => [])
                ++ (match lookupStr kvs "source_file" with
                    | some sf => _validate_source_file sf ctx
                    | none => [])
                ++ (match lookupStr kvs "eval_command" with
                    | some (.str _) => []
                    | some _ => [ctx ++ ": 'eval_command' must be a string"]
                    | none => [])
                ++ (match lookupStr kvs "conditional" with
                    | some c => _validate_conditional c ctx
                    | none => [])
                ++ (gs.map (fun g => _validate_guard g ctx)).flatten)
  | _ => .error .typeError

/-- One `enumerate` pass appending each item's errors in order, propagating
any exception. -/
def runItems (f : Nat → Yaml → Except PyErr (List String)) :
    Nat → List Yaml → Except PyErr (List String)
  | _, [] => .ok []
  | i, x :: xs =>
    match f i x with
    | .error e => .error e
    | .ok errs =>
      match runItems f (i + 1) xs with
      | .error e => .error e
      | .ok rest => .ok (errs ++ rest)

/-- `manifest.get(key, [])` followed by iteration: absent gives `[]`, a list
gives its items, anything else is modelled as an error (Python would iterate
a string per character; no claim depends on that), and `.get` on a non-dict
raises `AttributeError`. -/
def getSeq (m : Yaml) (k : String) : Except PyErr (List Yaml) :=
  match m with
  | .dict kvs =>
    match lookupStr kvs k with
    | none => .ok []
    | some (.list xs) => .ok xs
    | some _ => .error .typeError
  | _ => .error .attributeError

/-- `validate_manifest` (lines 238-300): all function errors in order, then
all module errors, as a pure list; an exception anywhere (only possible from
`_collect_guards` on a non-list `guards` value or from malformed manifest
shapes) aborts the whole validation. -/
def validate_manifest (manifest : Yaml) : Except PyErr (List String) :=
  match getSeq manifest "functions" with
  | .error e => .error e
  | .ok fs =>
    match runItems funcItemErrors 0 fs with
    | .error e => .error e
    | .ok fe =>
      match getSeq manifest "modules" with
      | .error e => .error e
      | .ok ms =>
        match runItems modItemErrors 0 ms with
        | .error e => .error e
        | .ok me => .ok (fe ++ me)

/-- Modelled from the spec (section 4.2's checklist): a structurally valid
guard — a known guard name, or a mapping whose first key is a known guard,
optionally wrapped in `not`. -/
def validGuard : Yaml → Bool
  | .str s => guardKnown s
  | .dict (("not", inner) :: _) => validGuard inner
  | .dict ((k, _) :: _) => guardKnown k
  | _ => false

/-- Modelled from the spec: a structurally valid `env` block. -/
def validEnv : Yaml → Bool
  | .dict kvs =>
      kvs.all (fun p =>
        match p.2 with
        | .str _ => true
        | .num _ => true
        | _ => false)
  | _ => false

/-- Modelled from the spec: a structurally valid `source_file` value. -/
def validSourceFile : Yaml → Bool
  | .str _ => true
  | .list xs =>
      xs.all (fun it =>
        match it with
        | .str _ => true
        | _ => false)
  | _ => false

/-- A branch carries at least one non-condition body key. -/
def branchHasBody (b : Yaml) : Bool :=
  BRANCH_BODY_KEYS.any (fun k => b.containsKey k)

/-- Modelled from the spec: a structurally valid non-first conditional
branch — a mapping with exactly one of `elif`/`else`, a valid `elif` guard,
and at least one body key. -/
def validCondBranch (b : Yaml) : Bool :=
  match b with
  | .dict _ =>
      (b.containsKey "elif" != b.containsKey "else")
      && (match b.get? "elif" with
          | some g => validGuard g
          | none => true)
      && branchHasBody b
  | _ => false

/-- Modelled from the spec: a structurally valid conditional — a non-empty
list whose first branch is a mapping with a valid `if` guard and a body key,
and whose later branches are valid. -/
def validConditional : Yaml → Bool
  | .list (first :: rest) =>
      (match first with
       | .dict _ =>
          (match first.get? "if" with
           | some g => validGuard g
           | none => false)
          && branchHasBody first
          && rest.all validCondBranch
       | _ => false)
  | _ => false

/-- Modelled from the spec: the module's guards field is well-formed — a
list of valid guards under `guards`, or one valid guard under `guard`, or
neither. -/
def validGuardsField (m : Yaml) : Bool :=
  match m.get? "guards" with
  | some (.list gs) => gs.all validGuard
  | some _ => false
  | none =>
    match m.get? "guard" with
    | some g => validGuard g
    | none => true

/-- Modelled from the spec (section 4.2): a structurally valid function
item. -/
def validFunctionItem (f : Yaml) : Bool :=
  match f with
  | .dict kvs =>
      (lookupStr kvs "name").isSome && (lookupStr kvs "description").isSome &&
      (match lookupStr kvs "predicate" with
       | some (.str p) => (assocLookup PREDICATES p).isSome
       | some _ => false
       | none => (lookupStr kvs "body").isSome)
  | _ => false

/-- Modelled from the spec (section 4.2): a structurally valid module
item. -/
def validModuleItem (m : Yaml) : Bool :=
  match m with
  | .dict kvs =>
      (lookupStr kvs "name").isSome && (lookupStr kvs "prefix").isSome &&
      (lookupStr kvs "description").isSome &&
      BODY_KEYS.any (fun k => (lookupStr kvs k).isSome) &&
      (match lookupStr kvs "env" with
       | some e => validEnv e
       | none => true) &&
      (match lookupStr kvs "source_file" with
       | some sf => validSourceFile sf
       | none => true) &&
      (match lookupStr kvs "eval_command" with
       | some (.str _) => true
       | some _ => false
       | none => true) &&
      (match lookupStr kvs "conditional" with
       | some c => validConditional c
       | none => true) &&
      validGuardsField (Yaml.dict kvs)
  | _ => false

/-- Modelled from the spec: a structurally valid manifest — both top-level
keys absent or lists of structurally valid items. -/
def validManifest (m : Yaml) : Bool :=
  match m with
  | .dict kvs =>
      (match lookupStr kvs "functions" with
       | none => true
       | some (.list fs) => fs.all validFunctionItem
       | some _ => false) &&
      (match lookupStr kvs "modules" with
       | none => true
       | some (.list ms) => ms.all validModuleItem
       | some _ => false)
  | _ => false

/-- `pat` occurs as a contiguous substring of `s`. -/
def strContains (pat s : String) : Prop :=
  ∃ a b, s = a ++ (pat ++ b)

/-- `load_manifest` (lines 781-785).  The filesystem is a map from path to
`none` (no such file: `open` raises `FileNotFoundError`) or `some doc`,
where `doc` is the parsed YAML document (`none` for an empty document, which
`yaml.safe_load` returns as Python `None`).  `yaml.safe_load(f) or \x7b\x7d`
replaces a missing or falsy document by the empty mapping. -/
def load_manifest (fs : String → Option (Option Yaml)) (path : String) :
    Except PyErr Yaml :=
  match fs path with
  | none => .error .fileNotFoundError
  | some doc =>
      .ok (match doc with
        | none => Yaml.dict []
        | some y => if pyTruthy y then y else Yaml.dict [])

/-- One Python dict assignment `seen[k] = item` on an ordered association
list: if the key is present, every binding of that key is replaced in place
(keeping its position); otherwise the binding is appended. -/
def pyDictInsert (m : List (String × Yaml)) (k : String) (v : Yaml) :
    List (String × Yaml) :=
  if m.any (fun p => p.1 = k) then
    m.map (fun p => if p.1 = k then (k, v) else p)
  else m ++ [(k, v)]

/-- The `seen` loop of `merge_manifests` (lines 796-798): key each item by
`item["name"]`.  A missing `name` raises `KeyError`; a non-mapping item
raises `TypeError`.  Non-string names (hashable in Python) are not
modelled — the manifest schema names items with strings. -/
def mergeKeyItemsAux (acc : List (String × Yaml)) :
    List Yaml → Except PyErr (List (String × Yaml))
  | [] => .ok acc
  | it :: rest =>
    match it with
    | .dict kvs =>
      match lookupStr kvs "name" with
      | some (.str n) => mergeKeyItemsAux (pyDictInsert acc n (.dict kvs)) rest
      | some _ => .error .typeError
      | none => .error .keyError
    | _ => .error .typeError

/-- `merge_manifests` (lines 788-800): copy the base mapping, then for each
of `functions` and `modules` build the name-keyed `seen` dict over base
items followed by extra items and store `list(seen.values())`. -/
def merge_manifests (base extra : Yaml) : Except PyErr Yaml :=
  match base, extra with
  | .dict bkvs, .dict _ =>
    match getSeq base "functions" with
    | .error e => .error e
    | .ok bf =>
      match getSeq extra "functions" with
      | .error e => .error e
      | .ok ef =>
        match mergeKeyItemsAux [] (bf ++ ef) with
        | .error e => .error e
        | .ok fseen =>
          match getSeq base "modules" with
          | .error e => .error e
          | .ok bm =>
            match getSeq extra "modules" with
            | .error e => .error e
            | .ok em =>
              match mergeKeyItemsAux [] (bm ++ em) with
              | .error e => .error e
              | .ok mseen =>
                .ok (.dict (pyDictInsert
                  (pyDictInsert bkvs "functions" (.list (fseen.map Prod.snd)))
                  "modules" (.list (mseen.map Prod.snd))))
  | _, _ => .error .typeError

/-- The merge loop of `main` (lines 997-1000): fold `merge_manifests` over
the loaded sources starting from the empty manifest. -/
def foldMerge : Yaml → List Yaml → Except PyErr Yaml
  | acc, [] => .ok acc
  | acc, src :: rest =>
    match merge_manifests acc src with
    | .error e => .error e
    | .ok m => foldMerge m rest

/-- `main`'s merge-then-validate pipeline (lines 996-1003): all sources are
merged before `validate_manifest` ever runs. -/
def mergeAndValidate (sources : List Yaml) : Except PyErr (List String) :=
  match foldMerge (Yaml.dict [("functions", Yaml.list []), ("modules", Yaml.list [])])
      sources with
  | .error e => .error e
  | .ok m => validate_manifest m

/-- The name an item merges under; total helper for stating merge facts
(items covered by the theorems' hypotheses always have string names). -/
def itemName (it : Yaml) : String :=
  match it with
  | .dict kvs =>
    match lookupStr kvs "name" with
    | some (.str n) => n
    | _ => ""
  | _ => ""

/-- The last item with the given name (merge override semantics: value =
last occurrence). -/
def lastNamed (n : String) : List Yaml → Option Yaml
  | [] => none
  | it :: rest =>
    match lastNamed n rest with
    | some v => some v
    | none => if itemName it = n then some it else none

/-- First-occurrence deduplication, skipping names already `seen` (the
position a mapping key keeps on reassignment: position = first
occurrence). -/
def dedupFirstFrom (seen : List String) : List String → List String
  | [] => []
  | x :: xs =>
      if x ∈ seen then dedupFirstFrom seen xs
      else x :: dedupFirstFrom (x :: seen) xs

/-- First-occurrence deduplication of a name list. -/
def dedupFirst (l : List String) : List String :=
  dedupFirstFrom [] l

/-- An item that is a mapping carrying a string `name`. -/
def hasName (it : Yaml) : Prop :=
  ∃ kvs n, it = Yaml.dict kvs ∧ lookupStr kvs "name" = some (Yaml.str n)

/-- An item that is a mapping with no `name` key (merging it raises
`KeyError`). -/
def namelessItem (it : Yaml) : Prop :=
  ∃ kvs, it = Yaml.dict kvs ∧ lookupStr kvs "name" = none

/-- An item that is a mapping whose `name`, if any, is a string. -/
def nameShaped (it : Yaml) : Prop :=
  ∃ kvs, it = Yaml.dict kvs ∧
    (lookupStr kvs "name" = none ∨ ∃ n, lookupStr kvs "name" = some (Yaml.str n))

/-- A well-shaped manifest source: a mapping whose `functions` and `modules`
entries read as lists of name-shaped mapping items. -/
def sourceShaped (src : Yaml) : Prop :=
  ∃ kvs fs ms, src = Yaml.dict kvs ∧ getSeq src "functions" = .ok fs ∧
    getSeq src "modules" = .ok ms ∧ ∀ it ∈ fs ++ ms, nameShaped it

/-- A well-shaped manifest whose items all carry names (the shape
`merge_manifests` outputs and `main`'s initial empty manifest has). -/
def mergedShaped (m : Yaml) : Prop :=
  ∃ kvs fs ms, m = Yaml.dict kvs ∧ getSeq m "functions" = .ok fs ∧
    getSeq m "modules" = .ok ms ∧ ∀ it ∈ fs ++ ms, hasName it

/-- Some item of the source lacks a `name` key. -/
def namelessIn (src : Yaml) : Prop :=
  ∃ fs ms, getSeq src "functions" = .ok fs ∧ getSeq src "modules" = .ok ms ∧
    ∃ it ∈ fs ++ ms, namelessItem it

/-- `do`-notation reduction for `Except`: bind of `ok`. -/
theorem bind_ok_eq {A B : Type} (a : A) (f : A → Except PyErr B) :
    Bind.bind (Except.ok a) f = f a := rfl

/-- `do`-notation reduction for `Except`: bind of `error`. -/
theorem bind_error_eq {A B : Type} (e : PyErr) (f : A → Except PyErr B) :
    Bind.bind (Except.error e : Except PyErr A) f = Except.error e := rfl

/-- Unfolding `joinNl` on a list of at least two elements. -/
theorem joinNl_cons_cons (x y : String) (l : List String) :
    joinNl (x :: y :: l) = x ++ "\n" ++ joinNl (y :: l) := rfl

/-- `"\n".flatten` of a list with a known last element ends with that element. -/
theorem joinNl_append_last (xs : List String) (t : String) :
    ∃ r, joinNl (xs ++ [t]) = r ++ t := by
  induction xs with
  | nil => exact ⟨"", by simp [joinNl]⟩
  | cons x xs ih =>
      obtain ⟨r, hr⟩ := ih
      cases xs with
      | nil => exact ⟨x ++ "\n", by simp [joinNl, String.append_assoc]⟩
      | cons y ys =>
          refine ⟨x ++ "\n" ++ r, ?_⟩
          show joinNl (x :: (y :: ys ++ [t])) = x ++ "\n" ++ r ++ t
          rw [List.cons_append] at hr ⊢
          rw [joinNl_cons_cons, hr]
          simp [String.append_assoc]

/-- If the branch loop succeeds, every branch's own lines succeed and are
contained in the total line list. -/
theorem renderBranches_mem (shell : String) :
    ∀ (l : List Yaml) (parts : List String),
      renderBranches l shell = .ok parts → ∀ b ∈ l,
        ∃ bp, renderBranch b shell = .ok bp ∧ ∀ x ∈ bp, x ∈ parts := by
  intro l
  induction l with
  | nil => intro parts _ b hb; simp at hb
  | cons hd tl ih =>
      intro parts h b hb
      cases hhd : renderBranch hd shell with
      | error e => simp [renderBranches, hhd, bind_error_eq] at h
      | ok p =>
        cases htl : renderBranches tl shell with
        | error e => simp [renderBranches, hhd, htl, bind_ok_eq, bind_error_eq] at h
        | ok rest =>
          have hparts : p ++ rest = parts := by
            simpa [renderBranches, hhd, htl, bind_ok_eq, bind_error_eq] using h
          rcases List.mem_cons.mp hb with rfl | hbtl
          · exact ⟨p, hhd, fun x hx => hparts ▸ List.mem_append_left _ hx⟩
          · obtain ⟨bp, h1, h2⟩ := ih rest htl b hbtl
            exact ⟨bp, h1, fun x hx => hparts ▸ List.mem_append_right _ (h2 x hx)⟩

/-- Inversion of `renderBranch` on an `if` branch. -/
theorem renderBranch_if_inv (branch : Yaml) (shell : String) (g : Yaml)
    (bp : List String) (hg : branch.get? "if" = some g)
    (h : renderBranch branch shell = .ok bp) :
    ∃ cond body, translate_guard_condition g shell = .ok cond ∧
      _render_body_lines branch shell = .ok body ∧
      bp = condHeaderIf shell cond :: body.map indentLine := by
  simp only [renderBranch, hg] at h
  cases htgc : translate_guard_condition g shell with
  | error e => simp [htgc, bind_error_eq] at h
  | ok cond =>
    cases hrbl : _render_body_lines branch shell with
    | error e => simp [htgc, hrbl, bind_ok_eq, bind_error_eq] at h
    | ok body =>
      refine ⟨cond, body, rfl, rfl, ?_⟩
      have := h
      simp [htgc, hrbl, bind_ok_eq] at this
      exact this.symm

/-- Inversion of `renderBranch` on an `elif` branch. -/
theorem renderBranch_elif_inv (branch : Yaml) (shell : String) (g : Yaml)
    (bp : List String) (hif : branch.get? "if" = none)
    (hg : branch.get? "elif" = some g)
    (h : renderBranch branch shell = .ok bp) :
    ∃ cond body, translate_guard_condition g shell = .ok cond ∧
      _render_body_lines branch shell = .ok body ∧
      bp = condHeaderElif shell cond :: body.map indentLine := by
  simp only [renderBranch, hif, hg] at h
  cases htgc : translate_guard_condition g shell with
  | error e => simp [htgc, bind_error_eq] at h
  | ok cond =>
    cases hrbl : _render_body_lines branch shell with
    | error e => simp [htgc, hrbl, bind_ok_eq, bind_error_eq] at h
    | ok body =>
      refine ⟨cond, body, rfl, rfl, ?_⟩
      have := h
      simp [htgc, hrbl, bind_ok_eq] at this
      exact this.symm

/-- Inversion of `renderBranch` on an `else` branch. -/
theorem renderBranch_else_inv (branch : Yaml) (shell : String)
    (bp : List String) (hif : branch.get? "if" = none)
    (helif : branch.get? "elif" = none)
    (helse : branch.containsKey "else" = true)
    (h : renderBranch branch shell = .ok bp) :
    ∃ body, _render_body_lines branch shell = .ok body ∧
      bp = condHeaderElse shell :: body.map indentLine := by
  simp only [renderBranch, hif, helif, helse, if_pos] at h
  cases hrbl : _render_body_lines branch shell with
  | error e => simp [hrbl, bind_error_eq] at h
  | ok body =>
    refine ⟨body, rfl, ?_⟩
    have := h
    simp [hrbl, bind_ok_eq] at this
    exact this.symm

/-- C4: a successfully rendered conditional block is the branch lines plus
the shell's terminator line (`end` for fish, `\x7d` for pwsh, `fi` for bash
and zsh) joined by newlines; every `if`/`elif` branch's condition comes from
`translate_guard_condition`; every branch's rendered body lines appear
indented in the block; and the three-branch EDITOR example renders, for each
shell, to the full three-assignment block. -/
theorem C4_conditional_block (conditional : List Yaml) (shell out : String)
    (hs : shell ∈ SHELLS)
    (hr : _render_conditional conditional shell = .ok out) :
    (∃ parts, renderBranches conditional shell = .ok parts ∧
      out = joinNl (parts ++ [condTerminator shell]) ∧
      (∃ r, out = r ++ (if shell = "fish" then "end"
                        else if shell = "pwsh" then "\x7d" else "fi")) ∧
      ∀ branch ∈ conditional,
        (∀ g, branch.get? "if" = some g →
          ∃ cond body, translate_guard_condition g shell = .ok cond ∧
            _render_body_lines branch shell = .ok body ∧
            condHeaderIf shell cond ∈ parts ∧
            ∀ l ∈ body, indentLine l ∈ parts) ∧
        (∀ g, branch.get? "if" = none → branch.get? "elif" = some g →
          ∃ cond body, translate_guard_condition g shell = .ok cond ∧
            _render_body_lines branch shell = .ok body ∧
            condHeaderElif shell cond ∈ parts ∧
            ∀ l ∈ body, indentLine l ∈ parts) ∧
        (branch.get? "if" = none → branch.get? "elif" = none →
          branch.containsKey "else" = true →
          ∃ body, _render_body_lines branch shell = .ok body ∧
            condHeaderElse shell ∈ parts ∧
            ∀ l ∈ body, indentLine l ∈ parts)) ∧
    (_render_conditional editorConditional "fish" =
      .ok "if command -q nvim\n    set -gx EDITOR \"nvim\"\nelse if command -q vim\n    set -gx EDITOR \"vim\"\nelse\n    set -gx EDITOR \"vi\"\nend" ∧
     _render_conditional editorConditional "zsh" =
      .ok "if (( $+commands[nvim] )); then\n    export EDITOR=\"nvim\"\nelif (( $+commands[vim] )); then\n    export EDITOR=\"vim\"\nelse\n    export EDITOR=\"vi\"\nfi" ∧
     _render_conditional editorConditional "bash" =
      .ok "if command -v nvim &>/dev/null; then\n    export EDITOR=\"nvim\"\nelif command -v vim &>/dev/null; then\n    export EDITOR=\"vim\"\nelse\n    export EDITOR=\"vi\"\nfi" ∧
     _render_conditional editorConditional "pwsh" =
      .ok "if ((Get-Command 'nvim' -ErrorAction SilentlyContinue)) \x7b\n    $env:EDITOR = \"nvim\"\n\x7d elseif ((Get-Command 'vim' -ErrorAction SilentlyContinue)) \x7b\n    $env:EDITOR = \"vim\"\n\x7d else \x7b\n    $env:EDITOR = \"vi\"\n\x7d") := by
  constructor
  · cases hb : renderBranches conditional shell with
    | error e => simp [_render_conditional, hb, bind_error_eq] at hr
    | ok parts =>
      have hout : out = joinNl (parts ++ [condTerminator shell]) := by
        have := hr
        simp [_render_conditional, hb, bind_ok_eq] at this
        exact this.symm
      refine ⟨parts, rfl, hout, ?_, ?_⟩
      · obtain ⟨r, hjr⟩ := joinNl_append_last parts (condTerminator shell)
        refine ⟨r, ?_⟩
        rw [hout, hjr]
        simp only [SHELLS, List.mem_cons, List.not_mem_nil, or_false] at hs
        rcases hs with rfl | rfl | rfl | rfl <;> simp [condTerminator]
      · intro branch hbr
        obtain ⟨bp, hbp, hsub⟩ := renderBranches_mem shell conditional parts hb branch hbr
        refine ⟨?_, ?_, ?_⟩
        · intro g hg
          obtain ⟨cond, body, h1, h2, h3⟩ := renderBranch_if_inv branch shell g bp hg hbp
          exact ⟨cond, body, h1, h2, hsub _ (h3 ▸ List.mem_cons_self _ _),
            fun l hl => hsub _ (h3 ▸ List.mem_cons_of_mem _ (List.mem_map_of_mem _ hl))⟩
        · intro g hif hg
          obtain ⟨cond, body, h1, h2, h3⟩ :=
            renderBranch_elif_inv branch shell g bp hif hg hbp
          exact ⟨cond, body, h1, h2, hsub _ (h3 ▸ List.mem_cons_self _ _),
            fun l hl => hsub _ (h3 ▸ List.mem_cons_of_mem _ (List.mem_map_of_mem _ hl))⟩
        · intro hif helif helse
          obtain ⟨body, h1, h2⟩ :=
            renderBranch_else_inv branch shell bp hif helif helse hbp
          exact ⟨body, h1, hsub _ (h2 ▸ List.mem_cons_self _ _),
            fun l hl => hsub _ (h2 ▸ List.mem_cons_of_mem _ (List.mem_map_of_mem _ hl))⟩
  · exact ⟨rfl, rfl, rfl, rfl⟩

/-- Witness for C4 at the EDITOR conditional rendered for bash. -/
theorem C4_witness :
    ∃ r, "if command -v nvim &>/dev/null; then\n    export EDITOR=\"nvim\"\nelif command -v vim &>/dev/null; then\n    export EDITOR=\"vim\"\nelse\n    export EDITOR=\"vi\"\nfi" =
      r ++ (if "bash" = "fish" then "end"
            else if "bash" = "pwsh" then "\x7d" else "fi") := by
  have h := C4_conditional_block editorConditional "bash"
    "if command -v nvim &>/dev/null; then\n    export EDITOR=\"nvim\"\nelif command -v vim &>/dev/null; then\n    export EDITOR=\"vim\"\nelse\n    export EDITOR=\"vi\"\nfi"
    (by decide) (by rfl)
  obtain ⟨parts, _, _, h3, _⟩ := h.1
  exact h3

/-- C5: body-text resolution — used identically by `_render_body_lines` for
modules/branches and by `_generate_complex` for functions — prefers the
exact shell key; a body mapping lacking the shell's key but containing
`shared` resolves to the `shared` text (trailing newlines stripped, as the
source does); with neither key the body resolves empty. -/
theorem C5_shared_body_fallback (kvs : List (String × Yaml)) (shell s : String) :
    (lookupStr kvs shell = none → lookupStr kvs "shared" = some (Yaml.str s) →
       resolve_body (Yaml.dict kvs) shell = .ok (rstripNl s)) ∧
    (lookupStr kvs shell = some (Yaml.str s) →
       resolve_body (Yaml.dict kvs) shell = .ok (rstripNl s)) ∧
    (lookupStr kvs shell = none → lookupStr kvs "shared" = none →
       resolve_body (Yaml.dict kvs) shell = .ok "") := by
  refine ⟨fun h1 h2 => ?_, fun h1 => ?_, fun h1 h2 => ?_⟩
  · simp [resolve_body, h1, h2]
  · simp [resolve_body, h1]
  · simp [resolve_body, h1, h2]

/-- Witness for C5: a body with only a `shared` entry, rendered for zsh. -/
theorem C5_witness :
    resolve_body (Yaml.dict [("shared", Yaml.str "echo hi\n")]) "zsh" =
      .ok "echo hi" := by
  have h := (C5_shared_body_fallback [("shared", Yaml.str "echo hi\n")]
    "zsh" "echo hi\n").1 rfl rfl
  simpa using h

/-- Every successful `_generate_predicate` output is a newline-join of
`HEADER` followed by at least one more line, plus a trailing newline. -/
theorem _generate_predicate_shape (name desc p shell t : String)
    (h : _generate_predicate name desc p shell = .ok t) :
    ∃ x xs, t = joinNl (HEADER :: x :: xs) ++ "\n" := by
  simp only [_generate_predicate] at h
  split at h
  · cases h
  · split at h
    · cases h
    · split at h <;> [skip; split at h] <;> [skip; skip; split at h] <;>
        (injection h with h; exact ⟨_, _, h.symm⟩)

/-- `complexHeaderTail` always starts with the description comment line. -/
theorem complexHeaderTail_cons (desc : String) (func : Yaml) :
    ∃ xs, complexHeaderTail desc func = ("# " ++ desc) :: xs := by
  unfold complexHeaderTail
  split <;> exact ⟨_, rfl⟩

/-- Every successful `_generate_complex` output is a newline-join of `HEADER`
followed by at least one more line, plus a trailing newline. -/
theorem _generate_complex_shape (name desc : String) (func : Yaml)
    (shell t : String) (h : _generate_complex name desc func shell = .ok t) :
    ∃ x xs, t = joinNl (HEADER :: x :: xs) ++ "\n" := by
  simp only [_generate_complex] at h
  split at h
  · cases h
  · split at h
    · cases h
    · obtain ⟨xs, hx⟩ := complexHeaderTail_cons desc func
      rw [hx] at h
      injection h with h
      exact ⟨_, _, by rw [← h, List.cons_append]⟩

/-- Every successful `generate_function` output is a newline-join of `HEADER`
followed by at least one more line, plus a trailing newline. -/
theorem generate_function_shape (func : Yaml) (shell t : String)
    (h : generate_function func shell = .ok t) :
    ∃ x xs, t = joinNl (HEADER :: x :: xs) ++ "\n" := by
  simp only [generate_function] at h
  split at h
  · cases h
  · split at h
    · cases h
    · split at h
      · split at h
        · exact _generate_predicate_shape _ _ _ _ _ h
        · cases h
      · exact _generate_complex_shape _ _ _ _ _ h

/-- Every successful `generate_module` output is a newline-join of `HEADER`
followed by at least one more line, plus a trailing newline. -/
theorem generate_module_shape (mod : Yaml) (shell u : String)
    (h : generate_module mod shell = .ok u) :
    ∃ x xs, u = joinNl (HEADER :: x :: xs) ++ "\n" := by
  simp only [generate_module] at h
  split at h
  · cases h
  · split at h
    · cases h
    · split at h
      · cases h
      · split at h
        · cases h
        · split at h
          · injection h with h
            exact ⟨_, _, h.symm⟩
          · split at h
            · cases h
            · injection h with h
              exact ⟨_, _, h.symm⟩
          · cases h

/-- C3: for every item and every shell, any text `generate_function` or
`generate_module` returns begins with the exact literal first line `HEADER`
(`# Generated from .shellgen/shell.yaml -- DO NOT EDIT`), i.e. it is
`HEADER` followed by a newline and the rest of the file. -/
theorem C3_header_invariant (item : Yaml) (shell : String) :
    (∀ t, generate_function item shell = .ok t →
      ∃ r, t = HEADER ++ "\n" ++ r) ∧
    (∀ u, generate_module item shell = .ok u →
      ∃ r, u = HEADER ++ "\n" ++ r) := by
  constructor
  · intro t h
    obtain ⟨x, xs, rfl⟩ := generate_function_shape item shell t h
    exact ⟨joinNl (x :: xs) ++ "\n", by rw [joinNl_cons_cons]; simp [String.append_assoc]⟩
  · intro u h
    obtain ⟨x, xs, rfl⟩ := generate_module_shape item shell u h
    exact ⟨joinNl (x :: xs) ++ "\n", by rw [joinNl_cons_cons]; simp [String.append_assoc]⟩

/-- Witness for C3: a predicate function rendered for fish. -/
theorem C3_witness :
    ∃ r, "# Generated from .shellgen/shell.yaml -- DO NOT EDIT\n# test\nfunction is-darwin --description 'test'\n    test (uname) = \"Darwin\"\nend\n" =
      HEADER ++ "\n" ++ r := by
  exact (C3_header_invariant
    (Yaml.dict [("name", Yaml.str "is-darwin"), ("description", Yaml.str "test"),
                ("predicate", Yaml.str "os_is_darwin")]) "fish").1 _ rfl

/-- `joinNl` of a list with known last element, with the trailing newline
attached to that element. -/
theorem joinNl_last_nl (xs : List String) (x : String) :
    ∃ p, joinNl (xs ++ [x]) ++ "\n" = p ++ (x ++ "\n") := by
  obtain ⟨r, hr⟩ := joinNl_append_last xs x
  exact ⟨r, by rw [hr, String.append_assoc]⟩

/-- The head of `dropWhile p` falsifies `p`. -/
theorem dropWhile_head_false {α : Type} (p : α → Bool) :
    ∀ (l : List α) c rest, l.dropWhile p = c :: rest → p c = false := by
  intro l
  induction l with
  | nil => intro c rest h; simp [List.dropWhile] at h
  | cons x xs ih =>
      intro c rest h
      by_cases hp : p x
      · rw [List.dropWhile_cons_of_pos hp] at h
        exact ih c rest h
      · rw [List.dropWhile_cons_of_neg hp] at h
        injection h with h1 _
        rw [← h1]
        exact Bool.eq_false_iff.mpr hp

/-- A non-empty `rstripNl` result does not end with a newline character. -/
theorem rstripNl_last (s : String) (h : rstripNl s ≠ "") :
    ∃ p c, c ≠ '\n' ∧ (rstripNl s).data = p ++ [c] := by
  cases hcase : s.data.reverse.dropWhile (fun c => c = '\n') with
  | nil =>
      exfalso
      apply h
      unfold rstripNl
      rw [hcase]
      rfl
  | cons c rest =>
      have hc := dropWhile_head_false (fun c => decide (c = '\n')) _ c rest hcase
      refine ⟨rest.reverse, c, by simpa using hc, ?_⟩
      unfold rstripNl
      rw [hcase]
      simp

/-- A string whose char data ends in `[c, newline]` with `c ≠ newline` does
not end in two newlines. -/
theorem no_double_nl_of_suffix (t pre sfx : String) (c : Char)
    (hc : c ≠ '\n') (l0 : List Char) (hs : sfx.data = l0 ++ [c, '\n'])
    (ht : t = pre ++ sfx) : ¬ ∃ q, t = q ++ "\n\n" := by
  rintro ⟨q, hq⟩
  have hdata : pre.data ++ (l0 ++ [c, '\n']) = q.data ++ ['\n', '\n'] := by
    rw [← hs, ← String.data_append, ← ht, hq, String.data_append]
  rw [← List.append_assoc] at hdata
  obtain ⟨-, hsuf⟩ := List.append_inj' hdata rfl
  injection hsuf with h1 _
  exact hc h1

/-- A `joinNl (pre ++ [last]) ++ "\n"` string whose last line does not end in
a newline character ends in exactly one newline. -/
theorem not_double_nl_of_join_last (t : String) (pre : List String)
    (last : String) (ht : t = joinNl (pre ++ [last]) ++ "\n")
    (hl : ∃ l0 c, c ≠ '\n' ∧ last.data = l0 ++ [c]) :
    ¬ ∃ q, t = q ++ "\n\n" := by
  obtain ⟨q, hq⟩ := joinNl_last_nl pre last
  obtain ⟨l0, c, hc, hdata⟩ := hl
  refine no_double_nl_of_suffix t q (last ++ "\n") c hc l0 ?_ (by rw [ht, hq])
  rw [String.data_append, hdata]
  simp

/-- Pulling the last element out of a cons-append list. -/
theorem cons_append_last {A : Type} (x : A) (a : List A) (y : A) :
    x :: (a ++ [y]) = (x :: a) ++ [y] := by simp

/-- Pulling the last element out of a nested cons-append list. -/
theorem cons_append_append_last {A : Type} (x : A) (a b : List A) (y : A) :
    x :: (a ++ (b ++ [y])) = (x :: (a ++ b)) ++ [y] := by simp

/-- Inversion of `_generate_predicate`: the output is a newline-join with an
explicit last line, which for fish/bash/pwsh is the closing `end`/`\x7d`. -/
theorem _generate_predicate_last (name desc p shell t : String)
    (h : _generate_predicate name desc p shell = .ok t) :
    ∃ pre last, t = joinNl (pre ++ [last]) ++ "\n" ∧
      (shell = "fish" ∨ shell = "bash" ∨ shell = "pwsh" →
        last = "end" ∨ last = "\x7d") := by
  simp only [_generate_predicate] at h
  split at h
  · cases h
  · rename_i x1 idx heq1
    split at h
    · cases h
    · rename_i x2 entry heq2
      split at h
      · injection h with h
        exact ⟨[HEADER, "# " ++ desc,
          "function " ++ name ++ " --description '" ++ desc ++ "'",
          "    " ++ entry.get idx], "end", by rw [← h]; rfl, fun _ => Or.inl rfl⟩
      · split at h
        · injection h with h
          exact ⟨[HEADER, "# " ++ desc, name ++ "() \x7b",
            "    " ++ entry.get idx], "\x7d", by rw [← h]; rfl,
            fun _ => Or.inr rfl⟩
        · split at h
          · injection h with h
            exact ⟨[HEADER, "# " ++ desc, "function " ++ name ++ " \x7b",
              "    " ++ entry.get idx], "\x7d", by rw [← h]; rfl,
              fun _ => Or.inr rfl⟩
          · rename_i hnf hnb hnp
            injection h with h
            refine ⟨[HEADER, ""], _, by rw [← h]; rfl, ?_⟩
            rintro (hf | hb | hp)
            · exact absurd hf hnf
            · exact absurd hb hnb
            · exact absurd hp hnp

/-- Inversion of `_generate_complex`: the output is a newline-join with an
explicit last line — the closing `end`/`\x7d` for fish/bash/pwsh, the
resolved body text for zsh. -/
theorem _generate_complex_last (name desc : String) (func : Yaml)
    (shell t : String) (h : _generate_complex name desc func shell = .ok t) :
    ∃ pre last, t = joinNl (pre ++ [last]) ++ "\n" ∧
      (shell = "fish" ∨ shell = "bash" ∨ shell = "pwsh" →
        last = "end" ∨ last = "\x7d") ∧
      (shell = "zsh" → ∃ b s, func.get? "body" = some b ∧
        resolve_body b shell = .ok s ∧ last = s) := by
  simp only [_generate_complex] at h
  split at h
  · cases h
  · rename_i bodySection hbody
    split at h
    · cases h
    · rename_i body_text hres
      split at h
      · rename_i hf
        injection h with h
        refine ⟨HEADER :: (complexHeaderTail desc func ++
          (["function " ++ name] ++ List.map indentLine (pySplitNl body_text))),
          "end", ?_, fun _ => Or.inl rfl,
          fun hz => absurd (hz.symm.trans hf) (by decide)⟩
        rw [← h, cons_append_append_last]
      · split at h
        · rename_i hnf hb
          injection h with h
          refine ⟨HEADER :: (complexHeaderTail desc func ++
            ([name ++ "() \x7b"] ++ List.map indentLine (pySplitNl body_text))),
            "\x7d", ?_, fun _ => Or.inr rfl,
            fun hz => absurd (hz.symm.trans hb) (by decide)⟩
          rw [← h, cons_append_append_last]
        · split at h
          · rename_i hnf hnb hp
            injection h with h
            refine ⟨HEADER :: (complexHeaderTail desc func ++
              (["function " ++ name ++ " \x7b"] ++ List.map indentLine (pySplitNl body_text))),
              "\x7d", ?_, fun _ => Or.inr rfl,
              fun hz => absurd (hz.symm.trans hp) (by decide)⟩
            rw [← h, cons_append_append_last]
          · rename_i hnf hnb hnp
            injection h with h
            refine ⟨HEADER :: complexHeaderTail desc func, body_text, ?_, ?_,
              fun _ => ⟨bodySection, body_text, hbody, hres, rfl⟩⟩
            · rw [← h, cons_append_last]
            · rintro (hf | hb | hp)
              · exact absurd hf hnf
              · exact absurd hb hnb
              · exact absurd hp hnp

/-- A non-empty successful `resolve_body` result is the rstrip of some raw
body text. -/
theorem resolve_body_rstrip (b : Yaml) (shell s : String)
    (h : resolve_body b shell = .ok s) (hne : s ≠ "") :
    ∃ raw, s = rstripNl raw := by
  unfold resolve_body at h
  split at h
  · split at h
    · injection h with h
      exact ⟨_, h.symm⟩
    · cases h
    · split at h
      · injection h with h
        exact ⟨_, h.symm⟩
      · cases h
      · injection h with h
        exact absurd h.symm hne
  · cases h

/-- `generate_function` output for fish, bash or pwsh always ends with the
block-closing line. -/
theorem generate_function_last (func : Yaml) (shell t : String)
    (hsh : shell = "fish" ∨ shell = "bash" ∨ shell = "pwsh")
    (h : generate_function func shell = .ok t) :
    ∃ pre last, t = joinNl (pre ++ [last]) ++ "\n" ∧
      (last = "end" ∨ last = "\x7d") := by
  simp only [generate_function] at h
  split at h
  · cases h
  · split at h
    · cases h
    · split at h
      · split at h
        · obtain ⟨pre, last, ht, hcl⟩ := _generate_predicate_last _ _ _ _ _ h
          exact ⟨pre, last, ht, hcl hsh⟩
        · cases h
      · obtain ⟨pre, last, ht, hcl, _⟩ := _generate_complex_last _ _ _ _ _ h
        exact ⟨pre, last, ht, hcl hsh⟩

/-- A `q' ++ terminator` line ends in a non-newline character, for every
supported shell. -/
theorem term_last_char (shell : String) (hs : shell ∈ SHELLS) (q : String) :
    ∃ l0 c, c ≠ '\n' ∧ (q ++ condTerminator shell).data = l0 ++ [c] := by
  simp only [SHELLS, List.mem_cons, List.not_mem_nil, or_false] at hs
  rcases hs with rfl | rfl | rfl | rfl
  · exact ⟨q.data ++ ['e', 'n'], 'd', by decide,
      by simp [condTerminator, String.data_append]⟩
  · exact ⟨q.data ++ ['f'], 'i', by decide,
      by simp [condTerminator, String.data_append]⟩
  · exact ⟨q.data ++ ['f'], 'i', by decide,
      by simp [condTerminator, String.data_append]⟩
  · exact ⟨q.data, '\x7d', by decide,
      by simp [condTerminator, String.data_append]⟩

/-- Inversion of `generate_module` when a conditional is present: the output
ends with the conditional block, whose own last line is the terminator. -/
theorem generate_module_cond_last (mod : Yaml) (shell u : String)
    (h : generate_module mod shell = .ok u)
    (hc : (mod.get? "conditional").isSome) :
    ∃ pre parts, u = joinNl (pre ++ [joinNl (parts ++ [condTerminator shell])]) ++ "\n" := by
  simp only [generate_module] at h
  split at h
  · cases h
  · split at h
    · cases h
    · split at h
      · cases h
      · split at h
        · cases h
        · split at h
          · rename_i hnone
            rw [hnone] at hc
            simp at hc
          · rename_i branches hbr
            split at h
            · cases h
            · rename_i block hblock
              cases hb : renderBranches branches shell with
              | error e => simp [_render_conditional, hb, bind_error_eq] at hblock
              | ok parts =>
                have hbl : block = joinNl (parts ++ [condTerminator shell]) := by
                  have := hblock
                  simp [_render_conditional, hb, bind_ok_eq] at this
                  exact this.symm
                injection h with h
                exact ⟨_, parts, by
                  rw [← h, hbl]
                  exact congrArg (fun l => joinNl l ++ "\n") (cons_append_last _ _ _)⟩
          · cases h

/-- C7 (amended): both generators always end their output with a newline.
The output ends with *exactly one* trailing newline whenever the last
assembled line is non-empty: always for `generate_function` on fish, bash
and pwsh; for zsh body-backed functions whenever the resolved body text is
non-empty; and for `generate_module` whenever a conditional block is
present.  (A zsh function whose body resolves empty — e.g. a `body` mapping
with only a `fish` entry — ends with more than one newline; see the
counterexample.) -/
theorem C7_trailing_newline (item : Yaml) (shell t u : String) :
    (generate_function item shell = .ok t → ∃ r, t = r ++ "\n") ∧
    (generate_module item shell = .ok u → ∃ r, u = r ++ "\n") ∧
    ((shell = "fish" ∨ shell = "bash" ∨ shell = "pwsh") →
      generate_function item shell = .ok t → ¬ ∃ q, t = q ++ "\n\n") ∧
    (shell = "zsh" → item.containsKey "predicate" = false →
      generate_function item shell = .ok t →
      ∀ b s, item.get? "body" = some b → resolve_body b "zsh" = .ok s →
        s ≠ "" → ¬ ∃ q, t = q ++ "\n\n") ∧
    ((item.get? "conditional").isSome → shell ∈ SHELLS →
      generate_module item shell = .ok u → ¬ ∃ q, u = q ++ "\n\n") := by
  refine ⟨?_, ?_, ?_, ?_, ?_⟩
  · intro h
    obtain ⟨x, xs, rfl⟩ := generate_function_shape item shell t h
    exact ⟨joinNl (HEADER :: x :: xs), rfl⟩
  · intro h
    obtain ⟨x, xs, rfl⟩ := generate_module_shape item shell u h
    exact ⟨joinNl (HEADER :: x :: xs), rfl⟩
  · intro hsh h
    obtain ⟨pre, last, ht, hl⟩ := generate_function_last item shell t hsh h
    refine not_double_nl_of_join_last t pre last ht ?_
    rcases hl with rfl | rfl
    · exact ⟨['e', 'n'], 'd', by decide, rfl⟩
    · exact ⟨[], '\x7d', by decide, rfl⟩
  · intro hz hpred h b s hb hres hne
    subst hz
    simp only [generate_function, hpred] at h
    split at h
    · cases h
    · split at h
      · cases h
      · rw [if_neg (by simp [hpred])] at h
        obtain ⟨pre, last, ht, -, hzs⟩ := _generate_complex_last _ _ _ _ _ h
        obtain ⟨b', s', hb', hres', rfl⟩ := hzs rfl
        rw [hb] at hb'
        injection hb' with hb'
        subst hb'
        rw [hres] at hres'
        injection hres' with hres'
        subst hres'
        obtain ⟨raw, hraw⟩ := resolve_body_rstrip b "zsh" s hres hne
        refine not_double_nl_of_join_last t pre s ht ?_
        obtain ⟨p, c, hc, hdata⟩ := rstripNl_last raw (by rw [← hraw]; exact hne)
        exact ⟨p, c, hc, by rw [hraw]; exact hdata⟩
  · intro hc hs h
    obtain ⟨pre, parts, ht⟩ := generate_module_cond_last item shell u h hc
    obtain ⟨q, hq⟩ := joinNl_append_last parts (condTerminator shell)
    refine not_double_nl_of_join_last u pre _ ht ?_
    obtain ⟨l0, c, hcne, hdata⟩ := term_last_char shell hs q
    exact ⟨l0, c, hcne, by rw [hq]; exact hdata⟩

/-- Splitting a trailing string literal exposes a substring occurrence. -/
theorem strContains_lit (P x L1 B L : String) (hL : L1 ++ (P ++ B) = L) :
    strContains P (x ++ L) :=
  ⟨x ++ L1, B, by rw [← hL, String.append_assoc]⟩

/-- A valid guard produces no `_validate_guard` errors. -/
theorem _validate_guard_valid (g : Yaml) (ctx : String)
    (hv : validGuard g = true) : _validate_guard g ctx = [] := by
  induction g, ctx using _validate_guard.induct <;>
    simp_all [validGuard, _validate_guard]

/-- Flattening a map whose every image is empty gives the empty list. -/
theorem flatten_map_nil {α : Type} (f : α → List String) (l : List α)
    (h : ∀ x ∈ l, f x = []) : (l.map f).flatten = [] := by
  induction l with
  | nil => rfl
  | cons a t ih =>
      simp only [List.map_cons, List.flatten_cons,
        h a (List.mem_cons_self a t)]
      exact ih (fun x hx => h x (List.mem_cons_of_mem a hx))

/-- A valid env block produces no `_validate_env` errors. -/
theorem _validate_env_valid (env : Yaml) (ctx : String)
    (hv : validEnv env = true) : _validate_env env ctx = [] := by
  cases env with
  | dict kvs =>
      simp only [_validate_env]
      apply flatten_map_nil
      intro p hp
      obtain ⟨k, v⟩ := p
      have := (List.all_eq_true.mp hv) (k, v) hp
      cases v <;> simp_all
  | str s => simp [validEnv] at hv
  | num n => simp [validEnv] at hv
  | list xs => simp [validEnv] at hv

/-- A valid source_file value produces no `_validate_source_file` errors. -/
theorem _validate_source_file_valid (sf : Yaml) (ctx : String)
    (hv : validSourceFile sf = true) : _validate_source_file sf ctx = [] := by
  cases sf with
  | str s => rfl
  | list xs =>
      simp only [_validate_source_file]
      apply flatten_map_nil
      intro x hx
      have := (List.all_eq_true.mp hv) x hx
      cases x <;> simp_all
  | num n => simp [validSourceFile] at hv
  | dict kvs => simp [validSourceFile] at hv

/-- A branch with a body key produces no branch-body errors. -/
theorem _validate_conditional_branch_body_valid (b : Yaml) (ctx : String)
    (h : branchHasBody b = true) :
    _validate_conditional_branch_body b ctx = [] := by
  simp [_validate_conditional_branch_body, branchHasBody] at h ⊢
  exact h

/-- Valid later branches produce no errors in the branch loop. -/
theorem validateCondBranches_valid (ctx : String) :
    ∀ (bs : List Yaml) (i : Nat), bs.all validCondBranch = true →
      validateCondBranches ctx i bs = [] := by
  intro bs
  induction bs with
  | nil => intro i _; rfl
  | cons b rest ih =>
      intro i hv
      simp only [List.all_cons, Bool.and_eq_true] at hv
      obtain ⟨hb, hrest⟩ := hv
      simp only [validateCondBranches]
      rw [ih (i + 1) hrest, List.append_nil]
      cases b with
      | dict kvs =>
          simp only [validCondBranch, Bool.and_eq_true] at hb
          obtain ⟨⟨hxor, hguard⟩, hbody⟩ := hb
          rw [_validate_conditional_branch_body_valid _ _ hbody]
          cases helif : (Yaml.dict kvs).containsKey "elif" with
          | false =>
              have hg : (Yaml.dict kvs).get? "elif" = none := by
                simpa [Yaml.containsKey, Option.isSome_iff_exists] using helif
              rw [helif] at hxor
              cases helse : (Yaml.dict kvs).containsKey "else" with
              | false => rw [helse] at hxor; simp at hxor
              | true => simp [helif, helse, hg]
          | true =>
              obtain ⟨g, hg⟩ : ∃ g, (Yaml.dict kvs).get? "elif" = some g := by
                simpa [Yaml.containsKey, Option.isSome_iff_exists] using helif
              rw [hg] at hguard
              rw [helif] at hxor
              cases helse : (Yaml.dict kvs).containsKey "else" with
              | true => rw [helse] at hxor; simp at hxor
              | false =>
                  simp [helif, helse, hg, _validate_guard_valid g _ hguard]
      | str s => simp [validCondBranch] at hb
      | num n => simp [validCondBranch] at hb
      | list xs => simp [validCondBranch] at hb

/-- A valid conditional produces no `_validate_conditional` errors. -/
theorem _validate_conditional_valid (c : Yaml) (ctx : String)
    (h : validConditional c = true) : _validate_conditional c ctx = [] := by
  cases c with
  | list branches =>
      cases branches with
      | nil => simp [validConditional] at h
      | cons first rest =>
          cases first with
          | dict kvs =>
              simp only [validConditional, Bool.and_eq_true] at h
              obtain ⟨⟨hif, hbody⟩, hrest⟩ := h
              cases hg : (Yaml.dict kvs).get? "if" with
              | none => rw [hg] at hif; simp at hif
              | some g =>
                  rw [hg] at hif
                  simp only [_validate_conditional, hg]
                  rw [_validate_guard_valid g _ hif,
                    _validate_conditional_branch_body_valid _ _ hbody,
                    validateCondBranches_valid ctx rest 1 hrest]
                  rfl
          | str s => simp [validConditional] at h
          | num n => simp [validConditional] at h
          | list xs => simp [validConditional] at h
  | str s => simp [validConditional] at h
  | num n => simp [validConditional] at h
  | dict kvs => simp [validConditional] at h

/-- A valid guards field collects to a list of valid guards. -/
theorem _collect_guards_valid (kvs : List (String × Yaml))
    (h : validGuardsField (Yaml.dict kvs) = true) :
    ∃ gs, _collect_guards (Yaml.dict kvs) = .ok gs ∧ gs.all validGuard = true := by
  simp only [validGuardsField] at h
  simp only [_collect_guards]
  cases hgs : (Yaml.dict kvs).get? "guards" with
  | some v =>
      rw [hgs] at h
      cases v <;> simp_all
  | none =>
      simp only [hgs] at h
      cases hg : (Yaml.dict kvs).get? "guard" with
      | some g =>
          simp only [hg] at h
          exact ⟨[g], rfl, by simp [h]⟩
      | none => exact ⟨[], rfl, rfl⟩

/-- A valid function item produces no errors. -/
theorem funcItemErrors_valid (i : Nat) (f : Yaml)
    (h : validFunctionItem f = true) : funcItemErrors i f = .ok [] := by
  cases f with
  | dict kvs =>
      simp only [validFunctionItem, Bool.and_eq_true] at h
      obtain ⟨⟨hn, hd⟩, hp⟩ := h
      obtain ⟨nv, hnv⟩ := Option.isSome_iff_exists.mp hn
      obtain ⟨dv, hdv⟩ := Option.isSome_iff_exists.mp hd
      simp only [funcItemErrors, hnv]
      cases hpred : lookupStr kvs "predicate" with
      | none =>
          rw [hpred] at hp
          obtain ⟨bv, hbv⟩ := Option.isSome_iff_exists.mp hp
          simp [hdv, hpred, hbv]
      | some pv =>
          rw [hpred] at hp
          cases pv <;> simp_all [hdv, hpred]
  | str s => simp [validFunctionItem] at h
  | num n => simp [validFunctionItem] at h
  | list xs => simp [validFunctionItem] at h

/-- A valid module item produces no errors. -/
theorem modItemErrors_valid (i : Nat) (m : Yaml)
    (h : validModuleItem m = true) : modItemErrors i m = .ok [] := by
  cases m with
  | dict kvs =>
      simp only [validModuleItem, Bool.and_eq_true] at h
      obtain ⟨⟨⟨⟨⟨⟨⟨⟨hn, hpx⟩, hd⟩, hbk⟩, henv⟩, hsf⟩, hec⟩, hcond⟩, hgf⟩ := h
      obtain ⟨nv, hnv⟩ := Option.isSome_iff_exists.mp hn
      obtain ⟨pxv, hpxv⟩ := Option.isSome_iff_exists.mp hpx
      obtain ⟨dv, hdv⟩ := Option.isSome_iff_exists.mp hd
      obtain ⟨gs, hgs, hgsv⟩ := _collect_guards_valid kvs hgf
      simp only [modItemErrors, hnv, hgs]
      have e1 : (if (lookupStr kvs "prefix").isNone then
          ["module '" ++ pyStr nv ++ "'" ++ ": missing required field 'prefix'"]
          else []) = [] := by simp [hpxv]
      have e2 : (if (lookupStr kvs "description").isNone then
          ["module '" ++ pyStr nv ++ "'" ++ ": missing required field 'description'"]
          else []) = [] := by simp [hdv]
      have e3 : (if BODY_KEYS.any (fun k => (lookupStr kvs k).isSome) then []
          else ["module '" ++ pyStr nv ++ "'" ++ ": must have at least one of: " ++
                BODY_KEYS_SORTED_JOINED]) = [] := by simp [hbk]
      have e4 : (match lookupStr kvs "env" with
          | some env => _validate_env env ("module '" ++ pyStr nv ++ "'")
          | none => []) = [] := by
        cases he : lookupStr kvs "env" with
        | none => rfl
        | some env => rw [he] at henv; exact _validate_env_valid env _ henv
      have e5 : (match lookupStr kvs "source_file" with
          | some sf => _validate_source_file sf ("module '" ++ pyStr nv ++ "'")
          | none => []) = [] := by
        cases he : lookupStr kvs "source_file" with
        | none => rfl
        | some sf => rw [he] at hsf; exact _validate_source_file_valid sf _ hsf
      have e6 : (match lookupStr kvs "eval_command" with
          | some (.str _) => ([] : List String)
          | some _ => ["module '" ++ pyStr nv ++ "'" ++ ": 'eval_command' must be a string"]
          | none => []) = [] := by
        cases he : lookupStr kvs "eval_command" with
        | none => rfl
        | some v => rw [he] at hec; cases v <;> simp_all
      have e7 : (match lookupStr kvs "conditional" with
          | some c => _validate_conditional c ("module '" ++ pyStr nv ++ "'")
          | none => []) = [] := by
        cases he : lookupStr kvs "conditional" with
        | none => rfl
        | some c => rw [he] at hcond; exact _validate_conditional_valid c _ hcond
      have e8 : ((gs.map (fun g => _validate_guard g ("module '" ++ pyStr nv ++ "'"))).flatten) = [] := by
        apply flatten_map_nil
        intro g hg
        exact _validate_guard_valid g _ ((List.all_eq_true.mp hgsv) g hg)
      rw [e1, e2, e3, e4, e5, e6, e7, e8]
      rfl
  | str s => simp [validModuleItem] at h
  | num n => simp [validModuleItem] at h
  | list xs => simp [validModuleItem] at h

/-- `runItems` over items that all produce no errors yields no errors. -/
theorem runItems_all_nil (f : Nat → Yaml → Except PyErr (List String))
    (l : List Yaml) (h : ∀ n x, x ∈ l → f n x = .ok []) :
    ∀ n, runItems f n l = .ok [] := by
  induction l with
  | nil => intro n; rfl
  | cons hd tl ih =>
      intro n
      simp only [runItems, h n hd (List.mem_cons_self hd tl)]
      rw [ih (fun n x hx => h n x (List.mem_cons_of_mem hd hx)) (n + 1)]
      rfl

/-- Each item's errors are contained in the output of `runItems`. -/
theorem runItems_mem (f : Nat → Yaml → Except PyErr (List String)) :
    ∀ (l : List Yaml) (n : Nat) (out : List String),
      runItems f n l = .ok out → ∀ i x, l.get? i = some x →
        ∃ e, f (n + i) x = .ok e ∧ ∀ s ∈ e, s ∈ out := by
  intro l
  induction l with
  | nil => intro n out _ i x hx; simp at hx
  | cons hd tl ih =>
      intro n out h i x hx
      cases hf : f n hd with
      | error e => simp [runItems, hf] at h
      | ok errs =>
        cases hr : runItems f (n + 1) tl with
        | error e => simp [runItems, hf, hr] at h
        | ok rest =>
          have hout : errs ++ rest = out := by
            simpa [runItems, hf, hr] using h
          cases i with
          | zero =>
              simp only [List.get?_cons_zero, Option.some_inj] at hx
              subst hx
              refine ⟨errs, by simpa using hf, fun s hs => ?_⟩
              rw [← hout]
              exact List.mem_append_left _ hs
          | succ j =>
              have hx' : tl.get? j = some x := by simpa using hx
              obtain ⟨e, he, hsub⟩ := ih (n + 1) rest hr j x hx'
              refine ⟨e, ?_, fun s hs => ?_⟩
              · have harith : n + 1 + j = n + (j + 1) := by omega
                rw [← harith]
                exact he
              · rw [← hout]
                exact List.mem_append_right _ (hsub s hs)

/-- Inversion of a successful `validate_manifest` run into its four stages. -/
theorem validate_manifest_parts (m : Yaml) (errs : List String)
    (h : validate_manifest m = .ok errs) :
    ∃ fs fe ms me, getSeq m "functions" = .ok fs ∧
      runItems funcItemErrors 0 fs = .ok fe ∧
      getSeq m "modules" = .ok ms ∧
      runItems modItemErrors 0 ms = .ok me ∧ errs = fe ++ me := by
  unfold validate_manifest at h
  split at h
  · cases h
  · rename_i x1 fs hfs
    split at h
    · cases h
    · rename_i x2 fe hfe
      split at h
      · cases h
      · rename_i x3 ms hms
        split at h
        · cases h
        · rename_i x4 me hme
          injection h with h
          exact ⟨fs, fe, ms, me, hfs, hfe, hms, hme, h.symm⟩

/-- A `some` result of `Yaml.get?` forces the mapping shape and the lookup. -/
theorem get?_some_inv (m : Yaml) (k : String) (v : Yaml)
    (h : m.get? k = some v) :
    ∃ kvs, m = .dict kvs ∧ lookupStr kvs k = some v := by
  cases m <;> simp_all [Yaml.get?]

/-- `getSeq` on a mapping whose key holds a list returns that list. -/
theorem getSeq_of_get?_list (m : Yaml) (k : String) (xs : List Yaml)
    (h : m.get? k = some (.list xs)) : getSeq m k = .ok xs := by
  obtain ⟨kvs, rfl, hl⟩ := get?_some_inv m k _ h
  simp [getSeq, hl]

/-- C6: `validate_manifest` is a pure error-list collector.  Whenever it
returns a list: a function item missing `name` contributes an error string
containing `name`; a named function missing `description` contributes one
containing `description`; a module item missing `name`, or a named module
missing `prefix` or `description`, likewise; a named module with none of the
recognized body keys contributes an error containing "must have at least one
of"; and a structurally valid manifest (spec section 4.2's checklist,
`validManifest`) yields the empty error list. -/
theorem C6_validate_manifest (m : Yaml) :
    (∀ errs fs i kvs, validate_manifest m = .ok errs →
       m.get? "functions" = some (.list fs) → fs.get? i = some (.dict kvs) →
       lookupStr kvs "name" = none →
       ∃ e ∈ errs, strContains "name" e) ∧
    (∀ errs fs i kvs nv, validate_manifest m = .ok errs →
       m.get? "functions" = some (.list fs) → fs.get? i = some (.dict kvs) →
       lookupStr kvs "name" = some nv → lookupStr kvs "description" = none →
       ∃ e ∈ errs, strContains "description" e) ∧
    (∀ errs ms i kvs, validate_manifest m = .ok errs →
       m.get? "modules" = some (.list ms) → ms.get? i = some (.dict kvs) →
       lookupStr kvs "name" = none →
       ∃ e ∈ errs, strContains "name" e) ∧
    (∀ errs ms i kvs nv, validate_manifest m = .ok errs →
       m.get? "modules" = some (.list ms) → ms.get? i = some (.dict kvs) →
       lookupStr kvs "name" = some nv → lookupStr kvs "prefix" = none →
       ∃ e ∈ errs, strContains "prefix" e) ∧
    (∀ errs ms i kvs nv, validate_manifest m = .ok errs →
       m.get? "modules" = some (.list ms) → ms.get? i = some (.dict kvs) →
       lookupStr kvs "name" = some nv → lookupStr kvs "description" = none →
       ∃ e ∈ errs, strContains "description" e) ∧
    (∀ errs ms i kvs nv, validate_manifest m = .ok errs →
       m.get? "modules" = some (.list ms) → ms.get? i = some (.dict kvs) →
       lookupStr kvs "name" = some nv →
       (∀ k ∈ BODY_KEYS, lookupStr kvs k = none) →
       ∃ e ∈ errs, strContains "must have at least one of" e) ∧
    (validManifest m = true → validate_manifest m = .ok []) := by
  refine ⟨?_, ?_, ?_, ?_, ?_, ?_, ?_⟩
  · intro errs fs i kvs h hfs hi hn
    obtain ⟨fs', fe, ms', me, hg1, hr1, hg2, hr2, rfl⟩ :=
      validate_manifest_parts m errs h
    rw [getSeq_of_get?_list m _ _ hfs] at hg1
    injection hg1 with hg1
    subst hg1
    obtain ⟨e, he, hsub⟩ := runItems_mem funcItemErrors fs 0 fe hr1 i _ hi
    simp only [funcItemErrors, hn, Nat.zero_add] at he
    injection he with he
    refine ⟨"functions[" ++ toString i ++ "]: missing required field 'name'",
      List.mem_append_left _ (hsub _ (by rw [← he]; exact List.mem_singleton_self _)), ?_⟩
    exact strContains_lit "name" ("functions[" ++ toString i)
      "]: missing required field '" "'" "]: missing required field 'name'" rfl
  · intro errs fs i kvs nv h hfs hi hn hd
    obtain ⟨fs', fe, ms', me, hg1, hr1, hg2, hr2, rfl⟩ :=
      validate_manifest_parts m errs h
    rw [getSeq_of_get?_list m _ _ hfs] at hg1
    injection hg1 with hg1
    subst hg1
    obtain ⟨e, he, hsub⟩ := runItems_mem funcItemErrors fs 0 fe hr1 i _ hi
    simp only [funcItemErrors, hn, hd, Nat.zero_add, Option.isNone_none,
      if_true] at he
    injection he with he
    refine ⟨"function '" ++ pyStr nv ++ "'" ++ ": missing required field 'description'",
      List.mem_append_left _ (hsub _ (by rw [← he]; simp)), ?_⟩
    exact strContains_lit "description" ("function '" ++ pyStr nv ++ "'")
      ": missing required field '" "'" ": missing required field 'description'" rfl
  · intro errs ms i kvs h hms hi hn
    obtain ⟨fs', fe, ms', me, hg1, hr1, hg2, hr2, rfl⟩ :=
      validate_manifest_parts m errs h
    rw [getSeq_of_get?_list m _ _ hms] at hg2
    injection hg2 with hg2
    subst hg2
    obtain ⟨e, he, hsub⟩ := runItems_mem modItemErrors ms 0 me hr2 i _ hi
    simp only [modItemErrors, hn, Nat.zero_add] at he
    injection he with he
    refine ⟨"modules[" ++ toString i ++ "]: missing required field 'name'",
      List.mem_append_right _ (hsub _ (by rw [← he]; exact List.mem_singleton_self _)), ?_⟩
    exact strContains_lit "name" ("modules[" ++ toString i)
      "]: missing required field '" "'" "]: missing required field 'name'" rfl
  · intro errs ms i kvs nv h hms hi hn hp
    obtain ⟨fs', fe, ms', me, hg1, hr1, hg2, hr2, rfl⟩ :=
      validate_manifest_parts m errs h
    rw [getSeq_of_get?_list m _ _ hms] at hg2
    injection hg2 with hg2
    subst hg2
    obtain ⟨e, he, hsub⟩ := runItems_mem modItemErrors ms 0 me hr2 i _ hi
    simp only [modItemErrors, hn, Nat.zero_add] at he
    split at he
    · cases he
    · injection he with he
      refine ⟨"module '" ++ pyStr nv ++ "'" ++ ": missing required field 'prefix'",
        List.mem_append_right _ (hsub _ (by rw [← he]; simp [hp])), ?_⟩
      exact strContains_lit "prefix" ("module '" ++ pyStr nv ++ "'")
        ": missing required field '" "'" ": missing required field 'prefix'" rfl
  · intro errs ms i kvs nv h hms hi hn hd
    obtain ⟨fs', fe, ms', me, hg1, hr1, hg2, hr2, rfl⟩ :=
      validate_manifest_parts m errs h
    rw [getSeq_of_get?_list m _ _ hms] at hg2
    injection hg2 with hg2
    subst hg2
    obtain ⟨e, he, hsub⟩ := runItems_mem modItemErrors ms 0 me hr2 i _ hi
    simp only [modItemErrors, hn, Nat.zero_add] at he
    split at he
    · cases he
    · injection he with he
      refine ⟨"module '" ++ pyStr nv ++ "'" ++ ": missing required field 'description'",
        List.mem_append_right _ (hsub _ (by rw [← he]; simp [hd])), ?_⟩
      exact strContains_lit "description" ("module '" ++ pyStr nv ++ "'")
        ": missing required field '" "'" ": missing required field 'description'" rfl
  · intro errs ms i kvs nv h hms hi hn hbk
    obtain ⟨fs', fe, ms', me, hg1, hr1, hg2, hr2, rfl⟩ :=
      validate_manifest_parts m errs h
    rw [getSeq_of_get?_list m _ _ hms] at hg2
    injection hg2 with hg2
    subst hg2
    obtain ⟨e, he, hsub⟩ := runItems_mem modItemErrors ms 0 me hr2 i _ hi
    simp only [modItemErrors, hn, Nat.zero_add] at he
    split at he
    · cases he
    · injection he with he
      have hany : (BODY_KEYS.any fun k => (lookupStr kvs k).isSome) = false := by
        rw [List.any_eq_false]
        intro k hk
        simp [hbk k hk]
      refine ⟨"module '" ++ pyStr nv ++ "'" ++ ": must have at least one of: " ++
        BODY_KEYS_SORTED_JOINED,
        List.mem_append_right _ (hsub _ (by rw [← he]; simp [hany])), ?_⟩
      show strContains _ (("module '" ++ pyStr nv ++ "'" ++
        ": must have at least one of: ") ++ BODY_KEYS_SORTED_JOINED)
      refine ⟨"module '" ++ pyStr nv ++ "'" ++ ": ",
        ": " ++ BODY_KEYS_SORTED_JOINED, ?_⟩
      simp only [String.append_assoc]
      rfl
  · intro hv
    cases m with
    | dict kvs =>
        simp only [validManifest, Bool.and_eq_true] at hv
        obtain ⟨hf, hm⟩ := hv
        unfold validate_manifest
        have hfseq : ∃ fs, getSeq (Yaml.dict kvs) "functions" = .ok fs ∧
            fs.all validFunctionItem = true := by
          cases hl : lookupStr kvs "functions" with
          | none => exact ⟨[], by simp [getSeq, hl], rfl⟩
          | some v =>
              rw [hl] at hf
              cases v <;> simp_all [getSeq, hl]
        have hmseq : ∃ ms, getSeq (Yaml.dict kvs) "modules" = .ok ms ∧
            ms.all validModuleItem = true := by
          cases hl : lookupStr kvs "modules" with
          | none => exact ⟨[], by simp [getSeq, hl], rfl⟩
          | some v =>
              rw [hl] at hm
              cases v <;> simp_all [getSeq, hl]
        obtain ⟨fs, hfs, hfv⟩ := hfseq
        obtain ⟨ms, hms, hmv⟩ := hmseq
        have h1 := runItems_all_nil funcItemErrors fs
          (fun n x hx => funcItemErrors_valid n x ((List.all_eq_true.mp hfv) x hx)) 0
        have h2 := runItems_all_nil modItemErrors ms
          (fun n x hx => modItemErrors_valid n x ((List.all_eq_true.mp hmv) x hx)) 0
        simp only [hfs, h1, hms, h2]
        rfl
    | str s => simp [validManifest] at hv
    | num n => simp [validManifest] at hv
    | list xs => simp [validManifest] at hv

/-- Witness for C6: a module with no recognized body key yields the
"must have at least one of" error. -/
theorem C6_witness :
    ∃ e ∈ ["module 'm': must have at least one of: aliases, body, conditional, env, eval_command, paths, source_file, tool"],
      strContains "must have at least one of" e := by
  have h := (C6_validate_manifest
    (Yaml.dict [("modules", Yaml.list [Yaml.dict
      [("name", Yaml.str "m"), ("prefix", Yaml.str "00"),
       ("description", Yaml.str "d")]])])).2.2.2.2.2.1
    ["module 'm': must have at least one of: aliases, body, conditional, env, eval_command, paths, source_file, tool"]
    [Yaml.dict [("name", Yaml.str "m"), ("prefix", Yaml.str "00"),
                ("description", Yaml.str "d")]]
    0 [("name", Yaml.str "m"), ("prefix", Yaml.str "00"),
       ("description", Yaml.str "d")] (Yaml.str "m")
    (by rfl) (by rfl) (by rfl) (by rfl)
    (by
      intro k hk
      simp only [BODY_KEYS, List.mem_cons, List.not_mem_nil, or_false] at hk
      rcases hk with rfl | rfl | rfl | rfl | rfl | rfl | rfl | rfl <;> rfl)
  exact h

/-- C7 counterexample: the item `\x7bname: greet, description: say hi,
body: \x7bfish: echo hi\x7d\x7d` passes validation, yet its zsh rendering —
whose resolved body is empty — ends with two newlines, refuting "ends with
exactly one trailing newline" for every valid item and shell. -/
theorem C7_counterexample :
    validate_manifest (Yaml.dict [("functions", Yaml.list
      [Yaml.dict [("name", Yaml.str "greet"), ("description", Yaml.str "say hi"),
                  ("body", Yaml.dict [("fish", Yaml.str "echo hi")])]])]) = .ok [] ∧
    generate_function (Yaml.dict [("name", Yaml.str "greet"),
      ("description", Yaml.str "say hi"),
      ("body", Yaml.dict [("fish", Yaml.str "echo hi")])]) "zsh" =
      .ok "# Generated from .shellgen/shell.yaml -- DO NOT EDIT\n# say hi\n\n\n" ∧
    ∃ q, "# Generated from .shellgen/shell.yaml -- DO NOT EDIT\n# say hi\n\n\n" =
      q ++ "\n\n" :=
  ⟨rfl, rfl,
   ⟨"# Generated from .shellgen/shell.yaml -- DO NOT EDIT\n# say hi\n", rfl⟩⟩

/-- Witness for C7 (amended) at the same item rendered for fish. -/
theorem C7_witness :
    ¬ ∃ q, "# Generated from .shellgen/shell.yaml -- DO NOT EDIT\n# say hi\n\nfunction greet\n    echo hi\nend\n" =
      q ++ "\n\n" := by
  have h := (C7_trailing_newline (Yaml.dict [("name", Yaml.str "greet"),
    ("description", Yaml.str "say hi"),
    ("body", Yaml.dict [("fish", Yaml.str "echo hi")])]) "fish"
    "# Generated from .shellgen/shell.yaml -- DO NOT EDIT\n# say hi\n\nfunction greet\n    echo hi\nend\n"
    "").2.2.1 (Or.inl rfl) (by rfl)
  exact h

/-- C8 counterexample: `load_manifest` on a missing file raises
`FileNotFoundError` (Python's bare `open(path)`) rather than returning the
empty manifest, refuting "never raises an error". -/
theorem C8_counterexample :
    load_manifest (fun _ => none) "missing.yaml" = .error .fileNotFoundError :=
  rfl

/-- C8 (amended): `load_manifest` raises `FileNotFoundError` for a missing
file (callers pre-filter such paths through `resolve_sources`, so `main`
never triggers this); for an existing file whose document is empty (or
falsy) it returns the empty mapping `\x7b\x7d` — not literally
`\x7bfunctions: [], modules: []\x7d`, but `.get`-style consumers read both
top-level lists as empty from it. -/
theorem C8_load_manifest (fs : String → Option (Option Yaml)) (path : String) :
    (fs path = none → load_manifest fs path = .error .fileNotFoundError) ∧
    (fs path = some none →
      load_manifest fs path = .ok (Yaml.dict []) ∧
      getSeq (Yaml.dict []) "functions" = .ok [] ∧
      getSeq (Yaml.dict []) "modules" = .ok []) := by
  constructor
  · intro h
    simp [load_manifest, h]
  · intro h
    refine ⟨by simp [load_manifest, h], rfl, rfl⟩

/-- Witness for C8 (amended): a filesystem with one empty document. -/
theorem C8_witness :
    load_manifest (fun p => if p = "shell.yaml" then some none else none)
      "shell.yaml" = .ok (Yaml.dict []) := by
  have h := (C8_load_manifest
    (fun p => if p = "shell.yaml" then some none else none) "shell.yaml").2
    (by simp)
  exact h.1

/-- Looking up the assigned key after an in-place replacement. -/
theorem lookup_subst_eq (k : String) (v : Yaml) :
    ∀ (m : List (String × Yaml)), m.any (fun p => p.1 = k) = true →
      lookupStr (m.map (fun p => if p.1 = k then (k, v) else p)) k = some v := by
  intro m
  induction m with
  | nil => intro h; simp at h
  | cons p rest ih =>
      intro h
      obtain ⟨p1, p2⟩ := p
      by_cases hp : p1 = k
      · simp only [List.map_cons, if_pos hp]
        simp [lookupStr]
      · simp only [List.any_cons, Bool.or_eq_true] at h
        rcases h with h | h
        · exact absurd (by simpa using h) hp
        · simp only [List.map_cons, if_neg hp]
          simp [lookupStr, hp, ih h]

/-- Looking up a different key after an in-place replacement. -/
theorem lookup_subst_ne (k : String) (v : Yaml) (k' : String) (hne : k' ≠ k) :
    ∀ m, lookupStr (m.map (fun p => if p.1 = k then (k, v) else p)) k' =
      lookupStr m k' := by
  intro m
  induction m with
  | nil => rfl
  | cons p rest ih =>
      obtain ⟨p1, p2⟩ := p
      by_cases hp : p1 = k
      · have h1 : ¬(k = k') := fun h => hne h.symm
        simp only [List.map_cons, if_pos hp]
        simp [lookupStr, hp, h1, ih]
      · simp only [List.map_cons, if_neg hp]
        by_cases hpk : p1 = k' <;> simp [lookupStr, hpk, ih]

/-- Looking up in a list extended by one binding. -/
theorem lookup_append_one (m : List (String × Yaml)) (k : String) (v : Yaml)
    (k' : String) :
    lookupStr (m ++ [(k, v)]) k' =
      (match lookupStr m k' with
       | some w => some w
       | none => if k = k' then some v else none) := by
  induction m with
  | nil => simp [lookupStr]
  | cons p rest ih =>
      obtain ⟨p1, p2⟩ := p
      by_cases hp : p1 = k' <;> simp [lookupStr, hp, ih]

/-- A key absent from the list looks up to `none`. -/
theorem lookup_none_of_not_any (m : List (String × Yaml)) (k : String)
    (h : m.any (fun p => p.1 = k) = false) : lookupStr m k = none := by
  induction m with
  | nil => rfl
  | cons p rest ih =>
      obtain ⟨p1, p2⟩ := p
      simp only [List.any_cons, Bool.or_eq_false_iff] at h
      have hp : ¬(p1 = k) := by simpa using h.1
      simp [lookupStr, hp, ih h.2]

/-- Python dict assignment: the assigned key maps to the new value, every
other key is untouched. -/
theorem pyDictInsert_lookup (m : List (String × Yaml)) (k : String) (v : Yaml)
    (k' : String) :
    lookupStr (pyDictInsert m k v) k' =
      if k' = k then some v else lookupStr m k' := by
  unfold pyDictInsert
  by_cases hany : m.any (fun p => p.1 = k)
  · rw [if_pos hany]
    by_cases hk : k' = k
    · subst hk
      rw [if_pos rfl]
      exact lookup_subst_eq k' v m hany
    · rw [if_neg hk]
      exact lookup_subst_ne k v k' hk m
  · rw [if_neg hany, lookup_append_one]
    by_cases hk : k' = k
    · subst hk
      rw [lookup_none_of_not_any m k'
        (by rw [← Bool.not_eq_true]; exact hany)]
    · rw [if_neg hk]
      have hk2 : ¬(k = k') := fun h => hk h.symm
      cases h : lookupStr m k' <;> simp [hk2]

/-- Python dict assignment: a present key keeps the key list unchanged, a
fresh key is appended. -/
theorem pyDictInsert_keys (m : List (String × Yaml)) (k : String) (v : Yaml) :
    (pyDictInsert m k v).map Prod.fst =
      if m.any (fun p => p.1 = k) then m.map Prod.fst
      else m.map Prod.fst ++ [k] := by
  unfold pyDictInsert
  split
  · rw [List.map_map]
    congr 1
    funext p
    by_cases hp : p.1 = k <;> simp [hp]
  · simp

/-- Every binding after an assignment comes from the old dict or is the
assigned binding. -/
theorem pyDictInsert_mem (m : List (String × Yaml)) (k : String) (v : Yaml) :
    ∀ p ∈ pyDictInsert m k v, p ∈ m ∨ p = (k, v) := by
  intro p hp
  unfold pyDictInsert at hp
  split at hp
  · obtain ⟨q, hq, hqe⟩ := List.mem_map.mp hp
    by_cases h : q.1 = k
    · right
      rw [← hqe]
      simp [h]
    · left
      rw [← hqe]
      simp only [if_neg h]
      exact hq
  · rcases List.mem_append.mp hp with h | h
    · exact Or.inl h
    · right
      simpa using h

/-- `any (· .1 = k)` is key membership. -/
theorem any_key_iff (m : List (String × Yaml)) (k : String) :
    m.any (fun p => p.1 = k) = true ↔ k ∈ m.map Prod.fst := by
  simp only [List.any_eq_true, List.mem_map, decide_eq_true_eq]

/-- `dedupFirstFrom` only depends on the membership of `seen`. -/
theorem dedupFirstFrom_congr :
    ∀ (l seen seen' : List String), (∀ x, x ∈ seen ↔ x ∈ seen') →
      dedupFirstFrom seen l = dedupFirstFrom seen' l := by
  intro l
  induction l with
  | nil => intros; rfl
  | cons x xs ih =>
      intro seen seen' h
      simp only [dedupFirstFrom]
      by_cases hx : x ∈ seen
      · rw [if_pos hx, if_pos ((h x).mp hx)]
        exact ih seen seen' h
      · rw [if_neg hx, if_neg (fun hc => hx ((h x).mpr hc)),
          ih (x :: seen) (x :: seen') (fun y => by simp [h y])]

/-- `dedupFirstFrom` has no duplicates and avoids the seen names. -/
theorem dedupFirstFrom_nodup :
    ∀ (l seen : List String),
      (dedupFirstFrom seen l).Nodup ∧ ∀ x ∈ dedupFirstFrom seen l, x ∉ seen := by
  intro l
  induction l with
  | nil => intro seen; exact ⟨List.nodup_nil, by simp [dedupFirstFrom]⟩
  | cons x xs ih =>
      intro seen
      simp only [dedupFirstFrom]
      by_cases hx : x ∈ seen
      · rw [if_pos hx]
        exact ih seen
      · rw [if_neg hx]
        obtain ⟨hnd, hni⟩ := ih (x :: seen)
        refine ⟨List.Nodup.cons (fun hc => (hni x hc) (List.mem_cons_self x seen)) hnd, ?_⟩
        intro y hy
        rcases List.mem_cons.mp hy with rfl | hy'
        · exact hx
        · exact fun hc => (hni y hy') (List.mem_cons_of_mem _ hc)

/-- A successful lookup is a binding of the list. -/
theorem lookup_some_mem (m : List (String × Yaml)) (k : String) (v : Yaml)
    (h : lookupStr m k = some v) : (k, v) ∈ m := by
  induction m with
  | nil => cases h
  | cons p rest ih =>
      obtain ⟨p1, p2⟩ := p
      by_cases hp : p1 = k
      · simp only [lookupStr, if_pos hp] at h
        injection h with h
        subst hp h
        exact List.mem_cons_self _ _

      · simp only [lookupStr, if_neg hp] at h
        exact List.mem_cons_of_mem _ (ih h)

/-- With no duplicate keys, every binding is found by lookup. -/
theorem lookup_unique_of_nodup (m : List (String × Yaml))
    (hnd : (m.map Prod.fst).Nodup) :
    ∀ p ∈ m, lookupStr m p.1 = some p.2 := by
  induction m with
  | nil => intro p hp; cases hp
  | cons q rest ih =>
      intro p hp
      simp only [List.map_cons, List.nodup_cons] at hnd
      rcases List.mem_cons.mp hp with rfl | hp'
      · simp [lookupStr]
      · have hne : ¬(q.1 = p.1) := by
          intro hc
          exact hnd.1 (hc ▸ List.mem_map_of_mem Prod.fst hp')
        simp only [lookupStr, if_neg hne]
        exact ih hnd.2 p hp'

/-- The merge `seen` loop over named items: it succeeds; its key list is the
accumulator's keys followed by the first occurrences of the new names
(position = first occurrence); each name looks up to its last occurrence
(value = last occurrence); and every binding comes from the accumulator or
pairs an input item with its own name. -/
theorem mergeKeyItemsAux_spec :
    ∀ (L : List Yaml) (acc : List (String × Yaml)),
      (∀ it ∈ L, hasName it) →
      ∃ out, mergeKeyItemsAux acc L = .ok out ∧
        out.map Prod.fst = acc.map Prod.fst ++
          dedupFirstFrom (acc.map Prod.fst) (L.map itemName) ∧
        (∀ n, lookupStr out n =
          (match lastNamed n L with
           | some v => some v
           | none => lookupStr acc n)) ∧
        (∀ p ∈ out, p ∈ acc ∨ (p.2 ∈ L ∧ p.1 = itemName p.2)) := by
  intro L
  induction L with
  | nil =>
      intro acc _
      refine ⟨acc, rfl, by simp [dedupFirstFrom], fun n => by simp [lastNamed],
        fun p hp => Or.inl hp⟩
  | cons it rest ih =>
      intro acc h
      obtain ⟨kvs, n0, hit, hname⟩ := h it (List.mem_cons_self it rest)
      subst hit
      have hiname : itemName (Yaml.dict kvs) = n0 := by simp [itemName, hname]
      have hstep : mergeKeyItemsAux acc (Yaml.dict kvs :: rest) =
          mergeKeyItemsAux (pyDictInsert acc n0 (Yaml.dict kvs)) rest := by
        simp [mergeKeyItemsAux, hname]
      obtain ⟨out, hout, hkeys, hlook, hmem⟩ :=
        ih (pyDictInsert acc n0 (Yaml.dict kvs))
          (fun x hx => h x (List.mem_cons_of_mem _ hx))
      refine ⟨out, by rw [hstep]; exact hout, ?_, ?_, ?_⟩
      · rw [hkeys, pyDictInsert_keys]
        simp only [List.map_cons, hiname, dedupFirstFrom]
        by_cases hmem0 : n0 ∈ acc.map Prod.fst
        · rw [if_pos ((any_key_iff acc n0).mpr hmem0), if_pos hmem0]
        · rw [if_neg (fun hc => hmem0 ((any_key_iff acc n0).mp hc)),
            if_neg hmem0, List.append_assoc, List.singleton_append]
          exact congrArg _ (congrArg _
            (dedupFirstFrom_congr _ _ _ (fun y => by simp [or_comm])))
      · intro n
        rw [hlook n]
        simp only [lastNamed]
        cases hl : lastNamed n rest with
        | some v => rfl
        | none =>
            rw [pyDictInsert_lookup]
            simp only [hiname]
            by_cases hn : n = n0
            · subst hn
              rw [if_pos rfl, if_pos rfl]
            · rw [if_neg hn, if_neg (fun hc => hn hc.symm)]
      · intro p hp
        rcases hmem p hp with hin | ⟨hrest, hn⟩
        · rcases pyDictInsert_mem acc n0 (Yaml.dict kvs) p hin with h1 | h2
          · exact Or.inl h1
          · right
            rw [h2]
            exact ⟨List.mem_cons_self _ _, by simp [hiname]⟩
        · exact Or.inr ⟨List.mem_cons_of_mem _ hrest, hn⟩

/-- For named items the `seen`-loop lookup is exactly "last occurrence". -/
theorem mergeKeyItems_lookup_lastNamed (L : List Yaml)
    (fseen : List (String × Yaml))
    (hspec : ∀ n, lookupStr fseen n =
      (match lastNamed n L with
       | some v => some v
       | none => lookupStr ([] : List (String × Yaml)) n)) :
    ∀ n, lookupStr fseen n = lastNamed n L := by
  intro n
  rw [hspec n]
  cases lastNamed n L <;> rfl

/-- C2: merging manifests whose items all carry names succeeds, and on each
of the two top-level lists independently implements "position = first
occurrence, value = last occurrence": the output names are the
first-occurrence deduplication of base-then-extra names (so non-colliding
items keep base-then-extra order and a collision stays at the base item's
position), the names are pairwise distinct (exactly one item per name), and
the surviving item of each name is the last occurrence — extra's item on a
base/extra collision. -/
theorem C2_merge_override (base extra : Yaml) (bkvs ekvs : List (String × Yaml))
    (hb : base = Yaml.dict bkvs) (he : extra = Yaml.dict ekvs)
    (bf ef bm em : List Yaml)
    (hbf : getSeq base "functions" = .ok bf)
    (hef : getSeq extra "functions" = .ok ef)
    (hbm : getSeq base "modules" = .ok bm)
    (hem : getSeq extra "modules" = .ok em)
    (hnames : ∀ it ∈ (bf ++ ef) ++ (bm ++ em), hasName it) :
    ∃ merged outF outM,
      merge_manifests base extra = .ok merged ∧
      merged.get? "functions" = some (Yaml.list outF) ∧
      merged.get? "modules" = some (Yaml.list outM) ∧
      outF.map itemName = dedupFirst ((bf ++ ef).map itemName) ∧
      outM.map itemName = dedupFirst ((bm ++ em).map itemName) ∧
      (outF.map itemName).Nodup ∧
      (outM.map itemName).Nodup ∧
      (∀ n v, lastNamed n (bf ++ ef) = some v →
        v ∈ outF ∧ ∀ w ∈ outF, itemName w = n → w = v) ∧
      (∀ n v, lastNamed n (bm ++ em) = some v →
        v ∈ outM ∧ ∀ w ∈ outM, itemName w = n → w = v) := by
  subst hb he
  obtain ⟨fseen, hf, hfkeys, hflook0, hfmem⟩ :=
    mergeKeyItemsAux_spec (bf ++ ef) []
      (fun it hit => hnames it (List.mem_append_left _ hit))
  obtain ⟨mseen, hm, hmkeys, hmlook0, hmmem⟩ :=
    mergeKeyItemsAux_spec (bm ++ em) []
      (fun it hit => hnames it (List.mem_append_right _ hit))
  simp only [List.map_nil, List.nil_append] at hfkeys hmkeys
  have hflook := mergeKeyItems_lookup_lastNamed (bf ++ ef) fseen hflook0
  have hmlook := mergeKeyItems_lookup_lastNamed (bm ++ em) mseen hmlook0
  have hfpair : ∀ p ∈ fseen, p.1 = itemName p.2 := by
    intro p hp
    rcases hfmem p hp with hc | ⟨_, hn⟩
    · cases hc
    · exact hn
  have hmpair : ∀ p ∈ mseen, p.1 = itemName p.2 := by
    intro p hp
    rcases hmmem p hp with hc | ⟨_, hn⟩
    · cases hc
    · exact hn
  have hfitem : (fseen.map Prod.snd).map itemName = fseen.map Prod.fst := by
    rw [List.map_map]
    exact List.map_congr_left (fun p hp => (hfpair p hp).symm)
  have hmitem : (mseen.map Prod.snd).map itemName = mseen.map Prod.fst := by
    rw [List.map_map]
    exact List.map_congr_left (fun p hp => (hmpair p hp).symm)
  have hfnodup : (fseen.map Prod.fst).Nodup := by
    rw [hfkeys]
    exact (dedupFirstFrom_nodup _ _).1
  have hmnodup : (mseen.map Prod.fst).Nodup := by
    rw [hmkeys]
    exact (dedupFirstFrom_nodup _ _).1
  refine ⟨Yaml.dict (pyDictInsert
      (pyDictInsert bkvs "functions" (Yaml.list (fseen.map Prod.snd)))
      "modules" (Yaml.list (mseen.map Prod.snd))),
    fseen.map Prod.snd, mseen.map Prod.snd, ?_, ?_, ?_, ?_, ?_, ?_, ?_, ?_, ?_⟩
  · simp only [merge_manifests, hbf, hef, hf, hbm, hem, hm]
  · simp [Yaml.get?, pyDictInsert_lookup]
  · simp [Yaml.get?, pyDictInsert_lookup]
  · rw [hfitem, hfkeys]
    rfl
  · rw [hmitem, hmkeys]
    rfl
  · rw [hfitem]
    exact hfnodup
  · rw [hmitem]
    exact hmnodup
  · intro n v hv
    have hl : lookupStr fseen n = some v := by rw [hflook n, hv]
    have hmem1 : (n, v) ∈ fseen := lookup_some_mem _ _ _ hl
    refine ⟨List.mem_map_of_mem Prod.snd hmem1, ?_⟩
    intro w hw hwn
    obtain ⟨p, hp, hpe⟩ := List.mem_map.mp hw
    have hkey : p.1 = n := by rw [hfpair p hp, hpe, hwn]
    have hu := lookup_unique_of_nodup fseen hfnodup p hp
    rw [hkey, hl] at hu
    injection hu with hu
    rw [← hpe, hu]
  · intro n v hv
    have hl : lookupStr mseen n = some v := by rw [hmlook n, hv]
    have hmem1 : (n, v) ∈ mseen := lookup_some_mem _ _ _ hl
    refine ⟨List.mem_map_of_mem Prod.snd hmem1, ?_⟩
    intro w hw hwn
    obtain ⟨p, hp, hpe⟩ := List.mem_map.mp hw
    have hkey : p.1 = n := by rw [hmpair p hp, hpe, hwn]
    have hu := lookup_unique_of_nodup mseen hmnodup p hp
    rw [hkey, hl] at hu
    injection hu with hu
    rw [← hpe, hu]

/-- Witness for C2 at the spec's concrete scenario: two modules named `m1`,
prefixes `00` and `01`; the merge keeps exactly one `m1`, the extra one. -/
theorem C2_witness :
    ∃ merged outM,
      merge_manifests
        (Yaml.dict [("modules", Yaml.list [Yaml.dict
          [("name", Yaml.str "m1"), ("prefix", Yaml.str "00"),
           ("description", Yaml.str "da"), ("paths", Yaml.list [Yaml.str "/a"])]])])
        (Yaml.dict [("modules", Yaml.list [Yaml.dict
          [("name", Yaml.str "m1"), ("prefix", Yaml.str "01"),
           ("description", Yaml.str "db"), ("paths", Yaml.list [Yaml.str "/b"])]])]) =
        .ok merged ∧
      merged.get? "modules" = some (Yaml.list outM) ∧
      outM.map itemName = ["m1"] ∧
      Yaml.dict [("name", Yaml.str "m1"), ("prefix", Yaml.str "01"),
        ("description", Yaml.str "db"), ("paths", Yaml.list [Yaml.str "/b"])] ∈ outM ∧
      (∀ w ∈ outM, itemName w = "m1" →
        w = Yaml.dict [("name", Yaml.str "m1"), ("prefix", Yaml.str "01"),
          ("description", Yaml.str "db"), ("paths", Yaml.list [Yaml.str "/b"])]) := by
  obtain ⟨merged, outF, outM, h1, h2, h3, h4, h5, h6, h7, h8, h9⟩ :=
    C2_merge_override
      (Yaml.dict [("modules", Yaml.list [Yaml.dict
        [("name", Yaml.str "m1"), ("prefix", Yaml.str "00"),
         ("description", Yaml.str "da"), ("paths", Yaml.list [Yaml.str "/a"])]])])
      (Yaml.dict [("modules", Yaml.list [Yaml.dict
        [("name", Yaml.str "m1"), ("prefix", Yaml.str "01"),
         ("description", Yaml.str "db"), ("paths", Yaml.list [Yaml.str "/b"])]])])
      [("modules", Yaml.list [Yaml.dict
        [("name", Yaml.str "m1"), ("prefix", Yaml.str "00"),
         ("description", Yaml.str "da"), ("paths", Yaml.list [Yaml.str "/a"])]])]
      [("modules", Yaml.list [Yaml.dict
        [("name", Yaml.str "m1"), ("prefix", Yaml.str "01"),
         ("description", Yaml.str "db"), ("paths", Yaml.list [Yaml.str "/b"])]])]
      rfl rfl [] []
      [Yaml.dict [("name", Yaml.str "m1"), ("prefix", Yaml.str "00"),
        ("description", Yaml.str "da"), ("paths", Yaml.list [Yaml.str "/a"])]]
      [Yaml.dict [("name", Yaml.str "m1"), ("prefix", Yaml.str "01"),
        ("description", Yaml.str "db"), ("paths", Yaml.list [Yaml.str "/b"])]]
      rfl rfl rfl rfl
      (by
        intro it hit
        simp only [List.nil_append, List.mem_append, List.mem_singleton,
          List.not_mem_nil, false_or] at hit
        rcases hit with rfl | rfl
        · exact ⟨_, "m1", rfl, rfl⟩
        · exact ⟨_, "m1", rfl, rfl⟩)
  obtain ⟨hv, huniq⟩ := h9 "m1"
    (Yaml.dict [("name", Yaml.str "m1"), ("prefix", Yaml.str "01"),
      ("description", Yaml.str "db"), ("paths", Yaml.list [Yaml.str "/b"])])
    (by rfl)
  exact ⟨merged, outM, h1, h3, by rw [h5]; rfl, hv, huniq⟩

/-- Any name-shaped item list containing a nameless item makes the merge
`seen` loop raise `KeyError`. -/
theorem mergeKeyItemsAux_keyError :
    ∀ (L : List Yaml) (acc : List (String × Yaml)),
      (∀ it ∈ L, nameShaped it) → (∃ it ∈ L, namelessItem it) →
      mergeKeyItemsAux acc L = .error .keyError := by
  intro L
  induction L with
  | nil =>
      intro acc _ h
      obtain ⟨s, hs, _⟩ := h
      cases hs
  | cons it rest ih =>
      intro acc hshape hex
      obtain ⟨kvs, hit, hname⟩ := hshape it (List.mem_cons_self it rest)
      subst hit
      rcases hname with hnone | ⟨n, hn⟩
      · simp [mergeKeyItemsAux, hnone]
      · have hstep : mergeKeyItemsAux acc (Yaml.dict kvs :: rest) =
            mergeKeyItemsAux (pyDictInsert acc n (Yaml.dict kvs)) rest := by
          simp [mergeKeyItemsAux, hn]
        rw [hstep]
        apply ih _ (fun x hx => hshape x (List.mem_cons_of_mem _ hx))
        obtain ⟨w, hw, hwnl⟩ := hex
        rcases List.mem_cons.mp hw with rfl | hw'
        · obtain ⟨kvs', heq, hnone⟩ := hwnl
          injection heq with heq
          subst heq
          rw [hn] at hnone
          cases hnone
        · exact ⟨w, hw', hwnl⟩

/-- A merge over name-shaped items with a nameless one raises `KeyError`. -/
theorem merge_manifests_keyError (base extra : Yaml)
    (bkvs ekvs : List (String × Yaml))
    (hb : base = Yaml.dict bkvs) (he : extra = Yaml.dict ekvs)
    (bf ef bm em : List Yaml)
    (hbf : getSeq base "functions" = .ok bf)
    (hef : getSeq extra "functions" = .ok ef)
    (hbm : getSeq base "modules" = .ok bm)
    (hem : getSeq extra "modules" = .ok em)
    (hshape : ∀ it ∈ (bf ++ ef) ++ (bm ++ em), nameShaped it)
    (hex : ∃ it ∈ (bf ++ ef) ++ (bm ++ em), namelessItem it) :
    merge_manifests base extra = .error .keyError := by
  subst hb he
  by_cases hfex : ∃ it ∈ bf ++ ef, namelessItem it
  · have herr := mergeKeyItemsAux_keyError (bf ++ ef) []
      (fun x hx => hshape x (List.mem_append_left _ hx)) hfex
    simp only [merge_manifests, hbf, hef, herr]
  · have hfnames : ∀ it ∈ bf ++ ef, hasName it := by
      intro it hit
      obtain ⟨kvs, hiteq, hor⟩ := hshape it (List.mem_append_left _ hit)
      rcases hor with hnone | ⟨n, hn⟩
      · exact absurd ⟨it, hit, kvs, hiteq, hnone⟩ hfex
      · exact ⟨kvs, n, hiteq, hn⟩
    obtain ⟨fseen, hf, -, -, -⟩ := mergeKeyItemsAux_spec (bf ++ ef) [] hfnames
    have hmex : ∃ it ∈ bm ++ em, namelessItem it := by
      obtain ⟨w, hw, hwnl⟩ := hex
      rcases List.mem_append.mp hw with h1 | h2
      · exact absurd ⟨w, h1, hwnl⟩ hfex
      · exact ⟨w, h2, hwnl⟩
    have herr := mergeKeyItemsAux_keyError (bm ++ em) []
      (fun x hx => hshape x (List.mem_append_right _ hx)) hmex
    simp only [merge_manifests, hbf, hef, hf, hbm, hem, herr]

/-- A merge over fully-named items succeeds. -/
theorem merge_manifests_total (base extra : Yaml)
    (bkvs ekvs : List (String × Yaml))
    (hb : base = Yaml.dict bkvs) (he : extra = Yaml.dict ekvs)
    (bf ef bm em : List Yaml)
    (hbf : getSeq base "functions" = .ok bf)
    (hef : getSeq extra "functions" = .ok ef)
    (hbm : getSeq base "modules" = .ok bm)
    (hem : getSeq extra "modules" = .ok em)
    (hnames : ∀ it ∈ (bf ++ ef) ++ (bm ++ em), hasName it) :
    merge_manifests base extra = .ok (Yaml.dict (pyDictInsert
      (pyDictInsert bkvs "functions"
        (Yaml.list ((mergeKeyItemsAux [] (bf ++ ef)).toOption.getD []
          |>.map Prod.snd)))
      "modules" (Yaml.list ((mergeKeyItemsAux [] (bm ++ em)).toOption.getD []
          |>.map Prod.snd)))) := by
  subst hb he
  obtain ⟨fseen, hf, -, -, -⟩ := mergeKeyItemsAux_spec (bf ++ ef) []
    (fun it hit => hnames it (List.mem_append_left _ hit))
  obtain ⟨mseen, hm, -, -, -⟩ := mergeKeyItemsAux_spec (bm ++ em) []
    (fun it hit => hnames it (List.mem_append_right _ hit))
  simp only [merge_manifests, hbf, hef, hf, hbm, hem, hm, Except.toOption,
    Option.getD]

/-- Folding `merge_manifests` over well-shaped sources, one of which holds a
nameless item, yields `KeyError` — the first bad source stops the fold. -/
theorem foldMerge_keyError :
    ∀ (sources : List Yaml) (acc : Yaml),
      mergedShaped acc → (∀ src ∈ sources, sourceShaped src) →
      (∃ src ∈ sources, namelessIn src) →
      foldMerge acc sources = .error .keyError := by
  intro sources
  induction sources with
  | nil =>
      intro acc _ _ h
      obtain ⟨s, hs, _⟩ := h
      cases hs
  | cons src rest ih =>
      intro acc haccs hsrcs hex
      obtain ⟨akvs, afs, ams, haeq, hafs, hams, hanames⟩ := haccs
      obtain ⟨skvs, sfs, sms, hseq, hsfs, hsms, hsshape⟩ :=
        hsrcs src (List.mem_cons_self src rest)
      subst haeq hseq
      have hshape' : ∀ it ∈ (afs ++ sfs) ++ (ams ++ sms), nameShaped it := by
        intro it hit
        rcases List.mem_append.mp hit with h1 | h2
        · rcases List.mem_append.mp h1 with ha | hs
          · obtain ⟨kvs, n, hiteq, hn⟩ := hanames it (List.mem_append_left _ ha)
            exact ⟨kvs, hiteq, Or.inr ⟨n, hn⟩⟩
          · exact hsshape it (List.mem_append_left _ hs)
        · rcases List.mem_append.mp h2 with ha | hs
          · obtain ⟨kvs, n, hiteq, hn⟩ := hanames it (List.mem_append_right _ ha)
            exact ⟨kvs, hiteq, Or.inr ⟨n, hn⟩⟩
          · exact hsshape it (List.mem_append_right _ hs)
      by_cases hnl : namelessIn (Yaml.dict skvs)
      · obtain ⟨fs', ms', hfs', hms', w, hw, hwnl⟩ := hnl
        rw [hsfs] at hfs'
        rw [hsms] at hms'
        injection hfs' with hfs'
        injection hms' with hms'
        subst hfs' hms'
        have hex' : ∃ it ∈ (afs ++ sfs) ++ (ams ++ sms), namelessItem it := by
          rcases List.mem_append.mp hw with h1 | h2
          · exact ⟨w, List.mem_append_left _ (List.mem_append_right _ h1), hwnl⟩
          · exact ⟨w, List.mem_append_right _ (List.mem_append_right _ h2), hwnl⟩
        have herr := merge_manifests_keyError (Yaml.dict akvs) (Yaml.dict skvs)
          akvs skvs rfl rfl afs sfs ams sms hafs hsfs hams hsms hshape' hex'
        simp only [foldMerge, herr]
      · have hsrcnames : ∀ it ∈ sfs ++ sms, hasName it := by
          intro it hit
          obtain ⟨kvs, hiteq, hor⟩ := hsshape it hit
          rcases hor with hnone | ⟨n, hn⟩
          · exact absurd ⟨sfs, sms, hsfs, hsms, it, hit, kvs, hiteq, hnone⟩ hnl
          · exact ⟨kvs, n, hiteq, hn⟩
        have hfnames : ∀ it ∈ afs ++ sfs, hasName it := by
          intro it hit
          rcases List.mem_append.mp hit with ha | hs
          · exact hanames it (List.mem_append_left _ ha)
          · exact hsrcnames it (List.mem_append_left _ hs)
        have hmnames : ∀ it ∈ ams ++ sms, hasName it := by
          intro it hit
          rcases List.mem_append.mp hit with ha | hs
          · exact hanames it (List.mem_append_right _ ha)
          · exact hsrcnames it (List.mem_append_right _ hs)
        obtain ⟨fseen, hf, -, -, hfmem⟩ := mergeKeyItemsAux_spec (afs ++ sfs) [] hfnames
        obtain ⟨mseen, hm, -, -, hmmem⟩ := mergeKeyItemsAux_spec (ams ++ sms) [] hmnames
        have hok : merge_manifests (Yaml.dict akvs) (Yaml.dict skvs) =
            .ok (Yaml.dict (pyDictInsert
              (pyDictInsert akvs "functions" (Yaml.list (fseen.map Prod.snd)))
              "modules" (Yaml.list (mseen.map Prod.snd)))) := by
          simp only [merge_manifests, hafs, hsfs, hf, hams, hsms, hm]
        simp only [foldMerge, hok]
        apply ih
        · refine ⟨_, fseen.map Prod.snd, mseen.map Prod.snd, rfl, ?_, ?_, ?_⟩
          · simp [getSeq, pyDictInsert_lookup]
          · simp [getSeq, pyDictInsert_lookup]
          · intro it hit
            rcases List.mem_append.mp hit with h1 | h2
            · obtain ⟨p, hp, hpe⟩ := List.mem_map.mp h1
              subst hpe
              rcases hfmem p hp with h0 | ⟨hmem, -⟩
              · cases h0
              · exact hfnames _ hmem
            · obtain ⟨p, hp, hpe⟩ := List.mem_map.mp h2
              subst hpe
              rcases hmmem p hp with h0 | ⟨hmem, -⟩
              · cases h0
              · exact hmnames _ hmem
        · exact fun s hs => hsrcs s (List.mem_cons_of_mem _ hs)
        · obtain ⟨s, hs, hsnl⟩ := hex
          rcases List.mem_cons.mp hs with rfl | hs'
          · exact absurd hsnl hnl
          · exact ⟨s, hs', hsnl⟩

/-- C9: an item missing its `name` key aborts the run at merge time with a
`KeyError`: (i) a single merge over name-shaped items raises `KeyError` as
soon as any item lacks a name; (ii) with every item named the merge instead
succeeds; (iii) in `main`'s pipeline, any well-shaped source list containing
a nameless item makes the merge fold — which runs before `validate_manifest`
— return `KeyError`, so validation never reports anything. -/
theorem C9_nameless_item_keyerror :
    (∀ (base extra : Yaml) (bkvs ekvs : List (String × Yaml))
        (bf ef bm em : List Yaml),
      base = Yaml.dict bkvs → extra = Yaml.dict ekvs →
      getSeq base "functions" = .ok bf → getSeq extra "functions" = .ok ef →
      getSeq base "modules" = .ok bm → getSeq extra "modules" = .ok em →
      (∀ it ∈ (bf ++ ef) ++ (bm ++ em), nameShaped it) →
      (∃ it ∈ (bf ++ ef) ++ (bm ++ em), namelessItem it) →
      merge_manifests base extra = .error .keyError) ∧
    (∀ (base extra : Yaml) (bkvs ekvs : List (String × Yaml))
        (bf ef bm em : List Yaml),
      base = Yaml.dict bkvs → extra = Yaml.dict ekvs →
      getSeq base "functions" = .ok bf → getSeq extra "functions" = .ok ef →
      getSeq base "modules" = .ok bm → getSeq extra "modules" = .ok em →
      (∀ it ∈ (bf ++ ef) ++ (bm ++ em), hasName it) →
      ∃ m, merge_manifests base extra = .ok m) ∧
    (∀ sources : List Yaml,
      (∀ src ∈ sources, sourceShaped src) →
      (∃ src ∈ sources, namelessIn src) →
      mergeAndValidate sources = .error .keyError ∧
      ∀ errs, mergeAndValidate sources ≠ .ok errs) := by
  refine ⟨?_, ?_, ?_⟩
  · intro base extra bkvs ekvs bf ef bm em hb he hbf hef hbm hem hshape hex
    exact merge_manifests_keyError base extra bkvs ekvs hb he bf ef bm em
      hbf hef hbm hem hshape hex
  · intro base extra bkvs ekvs bf ef bm em hb he hbf hef hbm hem hnames
    exact ⟨_, merge_manifests_total base extra bkvs ekvs hb he bf ef bm em
      hbf hef hbm hem hnames⟩
  · intro sources hsrcs hex
    have hfold := foldMerge_keyError sources
      (Yaml.dict [("functions", Yaml.list []), ("modules", Yaml.list [])])
      ⟨_, [], [], rfl, rfl, rfl, by intro it hit; cases hit⟩ hsrcs hex
    constructor
    · simp only [mergeAndValidate, hfold]
    · intro errs hok
      rw [mergeAndValidate, hfold] at hok
      cases hok

/-- Witness for C9: a single source whose one module lacks `name` makes the
pipeline fail with `KeyError`; with a name added the merge succeeds. -/
theorem C9_witness :
    (merge_manifests
        (Yaml.dict [("functions", Yaml.list []), ("modules", Yaml.list [])])
        (Yaml.dict [("modules", Yaml.list [Yaml.dict
          [("prefix", Yaml.str "00"), ("description", Yaml.str "d"),
           ("paths", Yaml.list [Yaml.str "/a"])]])]) = .error .keyError) ∧
    (∃ m, merge_manifests
        (Yaml.dict [("functions", Yaml.list []), ("modules", Yaml.list [])])
        (Yaml.dict [("modules", Yaml.list [Yaml.dict
          [("name", Yaml.str "m1"), ("prefix", Yaml.str "00"),
           ("description", Yaml.str "d"),
           ("paths", Yaml.list [Yaml.str "/a"])]])]) = .ok m) ∧
    (mergeAndValidate
        [Yaml.dict [("modules", Yaml.list [Yaml.dict
          [("prefix", Yaml.str "00"), ("description", Yaml.str "d"),
           ("paths", Yaml.list [Yaml.str "/a"])]])]] = .error .keyError) := by
  obtain ⟨h1, h2, h3⟩ := C9_nameless_item_keyerror
  refine ⟨?_, ?_, ?_⟩
  · exact h1
      (Yaml.dict [("functions", Yaml.list []), ("modules", Yaml.list [])])
      (Yaml.dict [("modules", Yaml.list [Yaml.dict
        [("prefix", Yaml.str "00"), ("description", Yaml.str "d"),
         ("paths", Yaml.list [Yaml.str "/a"])]])])
      [("functions", Yaml.list []), ("modules", Yaml.list [])]
      [("modules", Yaml.list [Yaml.dict
        [("prefix", Yaml.str "00"), ("description", Yaml.str "d"),
         ("paths", Yaml.list [Yaml.str "/a"])]])]
      [] [] []
      [Yaml.dict [("prefix", Yaml.str "00"), ("description", Yaml.str "d"),
        ("paths", Yaml.list [Yaml.str "/a"])]]
      rfl rfl rfl rfl rfl rfl
      (by
        intro it hit
        simp only [List.nil_append, List.mem_append, List.mem_singleton,
          List.not_mem_nil, false_or] at hit
        subst hit
        exact ⟨_, rfl, Or.inl rfl⟩)
      ⟨Yaml.dict [("prefix", Yaml.str "00"), ("description", Yaml.str "d"),
        ("paths", Yaml.list [Yaml.str "/a"])],
       by simp, ⟨_, rfl, rfl⟩⟩
  · exact h2
      (Yaml.dict [("functions", Yaml.list []), ("modules", Yaml.list [])])
      (Yaml.dict [("modules", Yaml.list [Yaml.dict
        [("name", Yaml.str "m1"), ("prefix", Yaml.str "00"),
         ("description", Yaml.str "d"), ("paths", Yaml.list [Yaml.str "/a"])]])])
      [("functions", Yaml.list []), ("modules", Yaml.list [])]
      [("modules", Yaml.list [Yaml.dict
        [("name", Yaml.str "m1"), ("prefix", Yaml.str "00"),
         ("description", Yaml.str "d"), ("paths", Yaml.list [Yaml.str "/a"])]])]
      [] [] []
      [Yaml.dict [("name", Yaml.str "m1"), ("prefix", Yaml.str "00"),
        ("description", Yaml.str "d"), ("paths", Yaml.list [Yaml.str "/a"])]]
      rfl rfl rfl rfl rfl rfl
      (by
        intro it hit
        simp only [List.nil_append, List.mem_append, List.mem_singleton,
          List.not_mem_nil, false_or] at hit
        subst hit
        exact ⟨_, "m1", rfl, rfl⟩)
  · exact (h3
      [Yaml.dict [("modules", Yaml.list [Yaml.dict
        [("prefix", Yaml.str "00"), ("description", Yaml.str "d"),
         ("paths", Yaml.list [Yaml.str "/a"])]])]]
      (by
        intro s hs
        simp only [List.mem_singleton] at hs
        subst hs
        refine ⟨_, [], [Yaml.dict [("prefix", Yaml.str "00"),
          ("description", Yaml.str "d"),
          ("paths", Yaml.list [Yaml.str "/a"])]], rfl, rfl, rfl, ?_⟩
        intro it hit
        simp only [List.nil_append, List.mem_singleton] at hit
        subst hit
        exact ⟨_, rfl, Or.inl rfl⟩)
      ⟨Yaml.dict [("modules", Yaml.list [Yaml.dict
          [("prefix", Yaml.str "00"), ("description", Yaml.str "d"),
           ("paths", Yaml.list [Yaml.str "/a"])]])],
        List.mem_singleton.mpr rfl,
        [], [Yaml.dict [("prefix", Yaml.str "00"), ("description", Yaml.str "d"),
          ("paths", Yaml.list [Yaml.str "/a"])]],
        rfl, rfl,
        Yaml.dict [("prefix", Yaml.str "00"), ("description", Yaml.str "d"),
          ("paths", Yaml.list [Yaml.str "/a"])],
        by simp, ⟨_, rfl, rfl⟩⟩).1

end Shellgen
